import Mathlib

/-!
Verification development for the OAuth2 credential lifecycle manager of the
`pens` email-monitoring agent.  The definitions below are a shallow embedding
of `src/oauth_token_manager.cpp` and `src/oauth_helper.cpp`: C++ strings are
`List Char`, machine `long`/`int` are `Int` (with an explicit 32-bit wrap
where the code casts `long` to `int`), file contents and HTTP responses are
explicit parameters, and the OpenSSL primitives (SHA-1, DER encoding,
RSA-SHA256 signing) are injected as abstract functions since their internals
are outside the repository.
-/

namespace Pens

/-- C++ `std::string` is modelled as a list of characters. -/
abbrev Str := List Char

/-- Convenience conversion from Lean string literals. -/
def str (s : String) : Str := s.toList

/-! ### Models of the `std::string` searching primitives -/

/-- First index of `pat` in a list (model of `std::string::find(pattern)`,
restricted to non-empty patterns, which is the only way the code uses it). -/
def findSub (pat : Str) : Str → Option Nat
  | [] => none
  | c :: t => if pat.isPrefixOf (c :: t) then some 0 else (findSub pat t).map (· + 1)

/-- Model of `std::string::find(pat, pos)`: first occurrence at index `≥ i`. -/
def strFind (s : Str) (pat : Str) (i : Nat) : Option Nat :=
  (findSub pat (s.drop i)).map (· + i)

/-- First index satisfying `p` (helper for `find_first_of`/`find_first_not_of`). -/
def findP (p : Char → Bool) : Str → Option Nat
  | [] => none
  | c :: t => if p c then some 0 else (findP p t).map (· + 1)

/-- Model of `std::string::find_first_of(set, pos)`. -/
def findFirstOf (s : Str) (set : Str) (i : Nat) : Option Nat :=
  (findP (fun c => set.contains c) (s.drop i)).map (· + i)

/-- Model of `std::string::find_first_not_of(set, pos)`. -/
def findFirstNotOf (s : Str) (set : Str) (i : Nat) : Option Nat :=
  (findP (fun c => !set.contains c) (s.drop i)).map (· + i)

/-- Model of `std::string::substr(pos, len)`. -/
def substr (s : Str) (pos len : Nat) : Str := (s.drop pos).take len

/-! ### Decimal and hexadecimal rendering (C++ `operator<<` on integers) -/

def natDigitChar (n : Nat) : Char := Char.ofNat (48 + n % 10)

/-- Digit accumulation with explicit fuel (so that the kernel can evaluate
it); `renderNat` supplies enough fuel for the recursion to finish. -/
def renderNatAux (fuel : Nat) (n : Nat) (acc : Str) : Str :=
  match fuel with
  | 0 => acc
  | fuel + 1 =>
    if n < 10 then natDigitChar n :: acc
    else renderNatAux fuel (n / 10) (natDigitChar n :: acc)

/-- Decimal rendering of a natural number. -/
def renderNat (n : Nat) : Str := renderNatAux (n + 1) n []

/-- Model of streaming a (signed) integer into a `std::ostream` in decimal. -/
def renderInt (i : Int) : Str :=
  if i < 0 then '-' :: renderNat (-i).toNat else renderNat i.toNat

def hexDigitChar (n : Nat) : Char :=
  Char.ofNat (if n % 16 < 10 then 48 + n % 16 else 87 + n % 16)

def renderHexAux (fuel : Nat) (n : Nat) (acc : Str) : Str :=
  match fuel with
  | 0 => acc
  | fuel + 1 =>
    if n < 16 then hexDigitChar n :: acc
    else renderHexAux fuel (n / 16) (hexDigitChar n :: acc)

def renderHexNat (n : Nat) : Str := renderHexAux (n + 1) n []

/-- Model of streaming a `long` with `std::hex` set: the value is printed as
its unsigned 64-bit representation in lowercase hexadecimal. -/
def renderHexLong (i : Int) : Str := renderHexNat ((i % (2 ^ 64)).toNat)

/-! ### Model of `std::stol` as used by `parseJsonInt`

`parseJsonInt` only ever passes either the empty string (when
`find_first_of` stopped on a `'-'`, since `find_first_not_of` of the digit
set then returns the same position) or a non-empty run of decimal digits.
`std::stol` throws on the empty string and on out-of-`long`-range values;
both throws are caught and turned into parse failure. -/

def digitVal (c : Char) : Nat := c.toNat - 48

def digitsVal (l : Str) : Nat := l.foldl (fun a c => a * 10 + digitVal c) 0

def stol (s : Str) : Option Int :=
  if s = [] then none
  else if ¬ s.all Char.isDigit then none
  else if (digitsVal s : Int) ≤ 9223372036854775807 then some (digitsVal s)
  else none

/-! ### `OAuthTokenManager::parseJsonString` / `parseJsonInt`
(src/oauth_token_manager.cpp lines 340-384) -/

/-- Shallow embedding of `OAuthTokenManager::parseJsonString`.  Returns
`some value` exactly when the C++ function returns `true` and stores `value`. -/
def parseJsonString (json : Str) (key : Str) : Option Str :=
  let pattern : Str := '"' :: key ++ ['"']
  match findSub pattern json with
  | none => none
  | some keyPos =>
    match strFind json [':'] keyPos with
    | none => none
    | some colonPos =>
      match strFind json ['"'] (colonPos + 1) with
      | none => none
      | some quoteStart =>
        match strFind json ['"'] (quoteStart + 1) with
        | none => none
        | some quoteEnd => some (substr json (quoteStart + 1) (quoteEnd - quoteStart - 1))

/-- Shallow embedding of `OAuthTokenManager::parseJsonInt`. -/
def parseJsonInt (json : Str) (key : Str) : Option Int :=
  let pattern : Str := '"' :: key ++ ['"']
  match findSub pattern json with
  | none => none
  | some keyPos =>
    match strFind json [':'] keyPos with
    | none => none
    | some colonPos =>
      match findFirstOf json (str "-0123456789") (colonPos + 1) with
      | none => none
      | some numberStart =>
        let numberEnd := (findFirstNotOf json (str "0123456789") numberStart).getD json.length
        stol (substr json numberStart (numberEnd - numberStart))

/-! ### The durable token record (`OAuthTokenData`, oauth_token_manager.hpp) -/

structure OAuthTokenData where
  accessToken : Str := []
  refreshToken : Str := []
  expiresAt : Int := 0
  expiresIn : Int := 0
  deriving DecidableEq, Repr

/-- The 32-bit wrap performed by `static_cast<int>(long)`. -/
def castToInt32 (v : Int) : Int := (v + 2 ^ 31) % 2 ^ 32 - 2 ^ 31

/-! ### `OAuthTokenManager::loadTokenFromFile` (lines 76-120)

The file system is abstracted away: the function receives the bytes of the
token file.  `tok0` is the in-memory record before the load; it matters
because a failed `parseJsonString` for `refresh_token` leaves the member
`token_.refreshToken` untouched. -/

def loadTokenFromFile (tok0 : OAuthTokenData) (json : Str) : Option OAuthTokenData :=
  match parseJsonString json (str "access_token") with
  | none => none
  | some accessToken =>
    let refreshToken : Str :=
      match parseJsonString json (str "refresh_token") with
      | some v => v
      | none => tok0.refreshToken
    let expiresIn : Int :=
      match parseJsonInt json (str "expires_in") with
      | some v => castToInt32 v
      | none => 3600
    let expiresAt : Int :=
      match parseJsonInt json (str "acquired_at") with
      | some acquiredAt =>
        (if acquiredAt > 1000000000000 then acquiredAt / 1000 else acquiredAt) + expiresIn
      | none =>
        match parseJsonInt json (str "expires_at") with
        | some e => if e > 1000000000000 then e / 1000 else e
        | none => 0
    some { accessToken := accessToken, refreshToken := refreshToken,
           expiresIn := expiresIn, expiresAt := expiresAt }

/-! ### `OAuthTokenManager::saveTokenToFile` (lines 122-139)

The function opens the destination with `std::ios::trunc` and then streams
the record with one chained `operator<<` per fragment.  `saveWrites` lists
the fragments in stream order; `savedJson` is the final file content;
`saveTrace` is the successive contents of the destination file during the
save, starting with the empty content produced by the truncating open. -/

def saveWrites (tok : OAuthTokenData) (acquiredAt : Int) : List Str :=
  [str "\x7b\n",
   str "  \"access_token\": \"", tok.accessToken, str "\",\n",
   str "  \"refresh_token\": \"", tok.refreshToken, str "\",\n",
   str "  \"expires_in\": ", renderInt tok.expiresIn, str ",\n",
   str "  \"acquired_at\": ", renderInt acquiredAt, str "\n",
   str "\x7d\n"]

def savedJson (tok : OAuthTokenData) (acquiredAt : Int) : Str :=
  (saveWrites tok acquiredAt).foldl (· ++ ·) []

def prefixStates (cur : Str) : List Str → List Str
  | [] => [cur]
  | w :: ws => cur :: prefixStates (cur ++ w) ws

def saveTrace (tok : OAuthTokenData) (acquiredAt : Int) : List Str :=
  prefixStates [] (saveWrites tok acquiredAt)

/-! ### `OAuthHelper` (src/oauth_helper.cpp): base64, url-encoding, JWT -/

def base64Table : Str := str "ABCDEFGHIJKLMNOPQRSTUVWXYZabcdefghijklmnopqrstuvwxyz0123456789+/"

def b64Char (n : Nat) : Char := base64Table.getD n 'A'

/-- Standard base64 of a byte sequence (model of the BIO_f_base64 filter with
`BIO_FLAGS_BASE64_NO_NL`, which emits the RFC 4648 alphabet with `=` padding
and no newlines). -/
def base64EncodeBytes : List Nat → Str
  | [] => []
  | [a] => [b64Char (a / 4), b64Char (a % 4 * 16), '=', '=']
  | [a, b] => [b64Char (a / 4), b64Char (a % 4 * 16 + b / 16), b64Char (b % 16 * 4), '=']
  | a :: b :: c :: rest =>
    b64Char (a / 4) :: b64Char (a % 4 * 16 + b / 16) :: b64Char (b % 16 * 4 + c / 64)
      :: b64Char (c % 64) :: base64EncodeBytes rest

/-- `OAuthHelper::base64Encode` (bytes are the characters of the string). -/
def base64Encode (s : Str) : Str := base64EncodeBytes (s.map (fun c => c.toNat % 256))

/-- `OAuthHelper::base64UrlEncode`: replace `+` with `-`, `/` with `_`,
erase `=`. -/
def base64UrlEncode (s : Str) : Str :=
  ((base64Encode s).map (fun c => if c = '+' then '-' else if c = '/' then '_' else c)).filter
    (fun c => c ≠ '=')

/-- Two lowercase hex digits of a byte (`std::hex`, `setw(2)`, fill `'0'`). -/
def hexByte (n : Nat) : Str := [hexDigitChar (n / 16 % 16), hexDigitChar n]

/-- `OAuthHelper::urlEncode`. -/
def urlEncode (v : Str) : Str :=
  v.flatMap (fun c =>
    if c.isAlphanum ∨ c = '-' ∨ c = '_' ∨ c = '.' ∨ c = '~' then [c]
    else '%' :: hexByte (c.toNat % 256))

/-- The OpenSSL primitives consumed by the helper, injected as abstract
functions: whether the private key and certificate files open and parse,
the DER bytes of the certificate, SHA-1, and RSA-SHA256 signing (with its
possible failure). -/
structure CryptoPrims where
  readKeyOk : Bool
  readCertOk : Bool
  certDer : Str
  sha1 : Str → Str
  rsaSign : Str → Str
  signOk : Bool

/-- `OAuthHelper::calculateCertificateThumbprint` (lines 140-174): base64url
of the SHA-1 of the DER encoding; the empty string on any failure. -/
def calculateCertificateThumbprint (p : CryptoPrims) : Str :=
  if p.readCertOk then base64UrlEncode (p.sha1 p.certDer) else []

/-- The `jti` claim computed at lines 216-219: `std::hex` is set, so both the
timestamp and `now % 1000000` are rendered in lowercase hexadecimal. -/
def jtiOf (now : Int) : Str :=
  renderHexLong now ++ ['-'] ++ renderHexLong (Int.tmod now 1000000)

/-- The JWT header JSON built at lines 208-209. -/
def assertionHeaderJson (thumbprint : Str) : Str :=
  str "\x7b\"alg\":\"RS256\",\"typ\":\"JWT\",\"x5t\":\"" ++ thumbprint ++ str "\"\x7d"

/-- The JWT payload JSON built at lines 221-227. -/
def assertionPayloadJson (clientId tenantId : Str) (now : Int) : Str :=
  str "\x7b\"aud\":\"https://login.microsoftonline.com/" ++ tenantId
    ++ str "/oauth2/v2.0/token\",\"exp\":" ++ renderInt (now + 3600)
    ++ str ",\"iss\":\"" ++ clientId
    ++ str "\",\"jti\":\"" ++ jtiOf now
    ++ str "\",\"nbf\":" ++ renderInt now
    ++ str ",\"sub\":\"" ++ clientId ++ str "\"\x7d"

/-- `OAuthHelper::generateClientAssertion` (lines 176-285). -/
def generateClientAssertion (p : CryptoPrims) (clientId tenantId : Str) (now : Int) : Str :=
  if ¬ p.readKeyOk then []
  else
    let thumbprint := calculateCertificateThumbprint p
    if thumbprint = [] then []
    else
      let header := base64UrlEncode (assertionHeaderJson thumbprint)
      let payload := base64UrlEncode (assertionPayloadJson clientId tenantId now)
      let signatureInput := header ++ ['.'] ++ payload
      if ¬ p.signOk then []
      else header ++ ['.'] ++ payload ++ ['.'] ++ base64UrlEncode (p.rsaSign signatureInput)

/-! ### `OAuthTokenManager` configuration and refresh strategies -/

/-- The configuration fields read by the manager's constructor. -/
structure OAuthConfig where
  clientId : Str
  tenantId : Str
  scope : Str
  certificatePath : Str
  privateKeyPath : Str
  clientSecret : Str

/-- The token endpoint URL built in `acquireTokenWithCertificate` /
`acquireTokenWithSecret` (lines 171, 207). -/
def tokenEndpoint (tenantId : Str) : Str :=
  str "https://login.microsoftonline.com/" ++ tenantId ++ str "/oauth2/v2.0/token"

/-- The POST body built by `acquireTokenWithCertificate` (lines 192-200). -/
def certPostData (cfg : OAuthConfig) (refreshToken clientAssertion : Str) : Str :=
  str "client_id=" ++ urlEncode cfg.clientId
    ++ str "&grant_type=refresh_token"
    ++ str "&refresh_token=" ++ urlEncode refreshToken
    ++ str "&client_assertion_type=urn:ietf:params:oauth:client-assertion-type:jwt-bearer"
    ++ str "&client_assertion=" ++ urlEncode clientAssertion
    ++ (if cfg.scope ≠ [] then str "&scope=" ++ urlEncode cfg.scope else [])

/-- The POST body built by `acquireTokenWithSecret` (lines 208-215). -/
def secretPostData (cfg : OAuthConfig) (refreshToken : Str) : Str :=
  str "client_id=" ++ urlEncode cfg.clientId
    ++ str "&grant_type=refresh_token"
    ++ str "&refresh_token=" ++ urlEncode refreshToken
    ++ str "&client_secret=" ++ urlEncode cfg.clientSecret
    ++ (if cfg.scope ≠ [] then str "&scope=" ++ urlEncode cfg.scope else [])

/-- A form body as a list of `key = value` parameters, and its rendering as
the wire string.  Used to state which parameters a body carries. -/
def renderParams : List (Str × Str) → Str
  | [] => []
  | [(k, v)] => k ++ str "=" ++ v
  | (k, v) :: rest => k ++ str "=" ++ v ++ str "&" ++ renderParams rest

/-- The parameters of the certificate-strategy body, in wire order. -/
def certParams (cfg : OAuthConfig) (refreshToken clientAssertion : Str) : List (Str × Str) :=
  [(str "client_id", urlEncode cfg.clientId),
   (str "grant_type", str "refresh_token"),
   (str "refresh_token", urlEncode refreshToken),
   (str "client_assertion_type", str "urn:ietf:params:oauth:client-assertion-type:jwt-bearer"),
   (str "client_assertion", urlEncode clientAssertion)]
    ++ (if cfg.scope ≠ [] then [(str "scope", urlEncode cfg.scope)] else [])

/-- The parameters of the secret-strategy body, in wire order. -/
def secretParams (cfg : OAuthConfig) (refreshToken : Str) : List (Str × Str) :=
  [(str "client_id", urlEncode cfg.clientId),
   (str "grant_type", str "refresh_token"),
   (str "refresh_token", urlEncode refreshToken),
   (str "client_secret", urlEncode cfg.clientSecret)]
    ++ (if cfg.scope ≠ [] then [(str "scope", urlEncode cfg.scope)] else [])

/-! ### `OAuthTokenManager::performTokenRequest` (lines 220-338)

The network is abstracted: `resp = none` models a transport (CURL) failure,
`resp = some (status, body)` a completed HTTP exchange.  The function
returns the pair (result of the C++ function, the in-memory record after
the call).  On a successful parse the record is mutated and the C++
function returns `saveTokenToFile()`, whose success is the abstract
file-system flag `fsOk`. -/

def performTokenRequest (tok : OAuthTokenData) (now : Int)
    (resp : Option (Int × Str)) (fsOk : Bool) : Bool × OAuthTokenData :=
  match resp with
  | none => (false, tok)
  | some (status, body) =>
    if status < 200 ∨ 300 ≤ status then (false, tok)
    else
      match parseJsonString body (str "access_token") with
      | none => (false, tok)
      | some newAccessToken =>
        let refreshToken : Str :=
          match parseJsonString body (str "refresh_token") with
          | some v => if v ≠ [] then v else tok.refreshToken
          | none => tok.refreshToken
        let expiresIn : Int :=
          match parseJsonInt body (str "expires_in") with
          | some v => castToInt32 v
          | none => 3600
        (fsOk, { accessToken := newAccessToken, refreshToken := refreshToken,
                 expiresIn := expiresIn, expiresAt := now + expiresIn })

/-- The POST body that `refreshAccessToken` (lines 141-218) would send:
`none` when no request is made (missing client id / tenant id, failed
assertion generation, or no trust mechanism configured). -/
def refreshPostBody (cfg : OAuthConfig) (p : CryptoPrims) (now : Int)
    (tok : OAuthTokenData) : Option Str :=
  if cfg.clientId = [] then none
  else if cfg.tenantId = [] then none
  else if cfg.certificatePath ≠ [] ∧ cfg.privateKeyPath ≠ [] then
    let ca := generateClientAssertion p cfg.clientId cfg.tenantId now
    if ca = [] then none else some (certPostData cfg tok.refreshToken ca)
  else if cfg.clientSecret ≠ [] then some (secretPostData cfg tok.refreshToken)
  else none

/-- `OAuthTokenManager::refreshAccessToken` (lines 141-168) together with the
strategy bodies it delegates to: result of the C++ function and the
in-memory record afterwards. -/
def refreshAccessToken (cfg : OAuthConfig) (p : CryptoPrims) (now : Int)
    (resp : Option (Int × Str)) (fsOk : Bool) (tok : OAuthTokenData) :
    Bool × OAuthTokenData :=
  if cfg.clientId = [] then (false, tok)
  else if cfg.tenantId = [] then (false, tok)
  else if cfg.certificatePath ≠ [] ∧ cfg.privateKeyPath ≠ [] then
    -- acquireTokenWithCertificate (lines 170-204)
    let ca := generateClientAssertion p cfg.clientId cfg.tenantId now
    if ca = [] then (false, tok) else performTokenRequest tok now resp fsOk
  else if cfg.clientSecret ≠ [] then
    -- acquireTokenWithSecret (lines 206-218)
    performTokenRequest tok now resp fsOk
  else (false, tok)

/-! ### `OAuthTokenManager::ensureValidToken` (lines 28-63) -/

/-- The manager's mutable state: the `tokenLoaded_` flag and `token_`. -/
structure MgrState where
  tokenLoaded : Bool
  token : OAuthTokenData
  deriving DecidableEq, Repr

/-- Shallow embedding of `ensureValidToken`.  `fileContent` is the content of
the token file (`none` when it cannot be opened); `resp` the outcome of the
at most one token-endpoint exchange this call can make; `fsOk` whether the
token file is writable for the save after a refresh.  Returns
`(result, attemptedRefresh, newState)` where `attemptedRefresh` records
whether control reached `refreshAccessToken()`. -/
def ensureValidToken (cfg : OAuthConfig) (p : CryptoPrims)
    (fileContent : Option Str) (fsOk : Bool) (st : MgrState) (now : Int)
    (resp : Option (Int × Str)) : Bool × Bool × MgrState :=
  let loaded : Option MgrState :=
    if st.tokenLoaded then some st
    else
      match fileContent with
      | none => none
      | some js =>
        match loadTokenFromFile st.token js with
        | none => none
        | some t => some { tokenLoaded := true, token := t }
  match loaded with
  | none => (false, false, st)
  | some st1 =>
    if st1.token.accessToken = [] then (false, false, st1)
    else if st1.token.refreshToken = [] then
      if st1.token.expiresAt = 0 ∨ now < st1.token.expiresAt then (true, false, st1)
      else (false, false, st1)
    else if st1.token.expiresAt ≠ 0 ∧ now < st1.token.expiresAt - 300 then (true, false, st1)
    else
      let r := refreshAccessToken cfg p now resp fsOk st1.token
      (r.1, true, { tokenLoaded := true, token := r.2 })

/-- `OAuthTokenManager::getAccessToken` (lines 65-67). -/
def getAccessToken (st : MgrState) : Str := st.token.accessToken

/-! ### Concrete fixtures used by witnesses and counterexamples -/

/-- Crypto primitives in which every OpenSSL call succeeds. -/
def primsFix : CryptoPrims :=
  { readKeyOk := true, readCertOk := true, certDer := str "DER",
    sha1 := fun _ => str "12345678901234567890", rsaSign := fun _ => str "SIG",
    signOk := true }

/-- A configuration with only a client secret as trust mechanism. -/
def cfgSecretOnly : OAuthConfig :=
  { clientId := str "c", tenantId := str "t", scope := [],
    certificatePath := [], privateKeyPath := [], clientSecret := str "s" }

/-- A configuration with certificate paths and a secret both present. -/
def cfgBothTrust : OAuthConfig :=
  { clientId := str "c", tenantId := str "t", scope := str "Mail.Read",
    certificatePath := str "cert.pem", privateKeyPath := str "key.pem",
    clientSecret := str "s" }

/-- A loaded record with the non-expiring sentinel and a refresh token. -/
def tokSentinel : OAuthTokenData :=
  { accessToken := str "a", refreshToken := str "r", expiresIn := 3600, expiresAt := 0 }

/-- A loaded record that is far from expiry at time 1700000000. -/
def tokFresh : OAuthTokenData :=
  { accessToken := str "a", refreshToken := str "r", expiresIn := 3600,
    expiresAt := 1700003600 }

/-- A loaded record that expired long before time 1700000000. -/
def stExpired : MgrState :=
  { tokenLoaded := true,
    token := { accessToken := str "a", refreshToken := str "r",
               expiresIn := 3600, expiresAt := 1 } }

/-- A 2xx exchange response rotating the refresh token. -/
def respRotate : Str :=
  str "\x7b\"access_token\":\"A2\",\"refresh_token\":\"R2\"\x7d"

/-- A token file with a millisecond `expires_at` and no `acquired_at`. -/
def jsonMsFix : Str :=
  str "\x7b\"access_token\":\"A\",\"expires_at\":1700000000000\x7d"

/-- A token file carrying both `acquired_at` and `expires_at`. -/
def jsonBothFix : Str :=
  str "\x7b\"access_token\":\"A\",\"acquired_at\":100,\"expires_at\":999\x7d"

/-! ### The literal segments of a saved token file

`savedJson tok t` is `segA0 ++ accessToken ++ segA1 ++ refreshToken ++ segA2
++ digits(expiresIn) ++ segA3 ++ digits(t) ++ segA4`. -/

def segA0 : Str := str "\x7b\n  \"access_token\": \""
def segA1 : Str := str "\",\n  \"refresh_token\": \""
def segA2 : Str := str "\",\n  \"expires_in\": "
def segA3 : Str := str ",\n  \"acquired_at\": "
def segA4 : Str := str "\n\x7d\n"

/-- A *valid* record whose access token collides with the literal key
`acquired_at`; the hand-rolled substring parser then mis-parses the
timestamp on reload. -/
def tokCollide : OAuthTokenData :=
  { accessToken := str "acquired_at", refreshToken := str "rt",
    expiresIn := 3600, expiresAt := 1700003600 }

/-- A benign record for the round-trip witness. -/
def tokBenign : OAuthTokenData :=
  { accessToken := str "tokA", refreshToken := str "tokR",
    expiresIn := 3600, expiresAt := 1700003600 }

/-! ## Claims

Each claim of the specification is settled by one theorem below. -/

/-- **C1**, counterexample to the claim as stated: for a loaded record with
non-empty access and refresh tokens and `expiresAt = 0` (the non-expiring
sentinel), the claim predicts that `ensureValidToken` returns true without
attempting a refresh, but the code falls through the guard
`expiresAt != 0 && now < expiresAt - 300` and attempts a refresh. -/
theorem c1_sentinel_refresh_counterexample :
    ¬ (((ensureValidToken cfgSecretOnly primsFix none true
            ⟨true, tokSentinel⟩ 1700000000 none).1 = true ∧
        (ensureValidToken cfgSecretOnly primsFix none true
            ⟨true, tokSentinel⟩ 1700000000 none).2.1 = false) ↔
       (tokSentinel.expiresAt = 0 ∨ (1700000000 : Int) < tokSentinel.expiresAt - 300)) := by
  decide

/-- **C1** (amended): for a loaded record with non-empty `accessToken` and
non-empty `refreshToken`, `ensureValidToken` returns true without attempting
a refresh exactly when `expiresAt` is **not** the sentinel 0 **and**
`now < expiresAt - 300`; in particular a record with
`acquiredAt = now - 3301`, `expiresIn = 3600` triggers a refresh and one
with `acquiredAt = now - 1800`, `expiresIn = 3600` does not. -/
theorem c1_refresh_window (cfg : OAuthConfig) (p : CryptoPrims)
    (fc : Option Str) (fsOk : Bool) (tok : OAuthTokenData) (now : Int)
    (resp : Option (Int × Str))
    (hAT : tok.accessToken ≠ []) (hRT : tok.refreshToken ≠ [])
    (hnow : 0 < now) :
    (((ensureValidToken cfg p fc fsOk ⟨true, tok⟩ now resp).1 = true ∧
      (ensureValidToken cfg p fc fsOk ⟨true, tok⟩ now resp).2.1 = false) ↔
      (tok.expiresAt ≠ 0 ∧ now < tok.expiresAt - 300)) ∧
    (tok.expiresAt = (now - 3301) + 3600 →
      (ensureValidToken cfg p fc fsOk ⟨true, tok⟩ now resp).2.1 = true) ∧
    (tok.expiresAt = (now - 1800) + 3600 →
      (ensureValidToken cfg p fc fsOk ⟨true, tok⟩ now resp).1 = true ∧
      (ensureValidToken cfg p fc fsOk ⟨true, tok⟩ now resp).2.1 = false) := by
  simp only [ensureValidToken, if_true, hAT, hRT, ite_false, if_false]
  constructor
  · by_cases h : tok.expiresAt ≠ 0 ∧ now < tok.expiresAt - 300
    · simp [h]
    · simp [h]
  · constructor
    · intro hea
      by_cases h : tok.expiresAt ≠ 0 ∧ now < tok.expiresAt - 300
      · omega
      · simp [h]
    · intro hea
      have h : tok.expiresAt ≠ 0 ∧ now < tok.expiresAt - 300 := by omega
      simp [h]

/-- Witness for the C1 theorem at a concrete input. -/
theorem c1_refresh_window_witness :
    ((str "a" : Str) ≠ [] ∧ (str "r" : Str) ≠ [] ∧ (0 : Int) < 1700000000) ∧
    (((ensureValidToken cfgSecretOnly primsFix none true ⟨true, tokFresh⟩
          1700000000 none).1 = true ∧
      (ensureValidToken cfgSecretOnly primsFix none true ⟨true, tokFresh⟩
          1700000000 none).2.1 = false) ↔
      (tokFresh.expiresAt ≠ 0 ∧ (1700000000 : Int) < tokFresh.expiresAt - 300)) :=
  ⟨⟨by decide, by decide, by decide⟩,
   (c1_refresh_window cfgSecretOnly primsFix none true tokFresh 1700000000 none
      (by decide) (by decide) (by decide)).1⟩

/-- **C2**: the claim (save writes to a temporary location and atomically
replaces the destination) is violated by the code, which truncates the
destination in place and streams the record into it: the destination's
successive contents during every save include the empty string, which is not
a complete record (every saved record is non-empty). -/
theorem c2_save_passes_through_empty (tok old : OAuthTokenData) (tSave tOld : Int) :
    [] ∈ saveTrace tok tSave ∧ savedJson old tOld ≠ [] := by
  constructor
  · simp [saveTrace, saveWrites, prefixStates]
  · simp [savedJson, saveWrites, str]

/-- **C8**: the jti of a client assertion is a deterministic function of the
epoch second at which it is generated (hex of `now`, `'-'`, hex of
`now % 1000000`) — it contains no random component, so two assertions
generated during the same second carry the same jti.  At
`now = 1700000000` every invocation yields `"6553f100-0"`. -/
theorem c8_jti_deterministic :
    jtiOf 1700000000 = str "6553f100-0" := by
  decide

/-- **C9**, counterexample to the claim as stated: a 2xx exchange response
whose `access_token` field is the empty string is accepted, so
`ensureValidToken` returns true while `getAccessToken` returns the empty
string. -/
theorem c9_empty_access_token_counterexample :
    (ensureValidToken cfgSecretOnly primsFix none true stExpired 1700000000
        (some (200, str "\x7b\"access_token\":\"\"\x7d"))).1 = true ∧
    getAccessToken (ensureValidToken cfgSecretOnly primsFix none true stExpired
        1700000000 (some (200, str "\x7b\"access_token\":\"\"\x7d"))).2.2 = [] := by
  decide

/-- **C3**: for every clientId, tenantId and readable certificate and
private key, the generated client assertion is
`base64url(header) ++ "." ++ base64url(payload) ++ "." ++
base64url(RSA-SHA256 signature over the first two joined by ".")`, the
header JSON is exactly `{"alg":"RS256","typ":"JWT","x5t":<thumbprint>}`
with the thumbprint `base64url(SHA-1(DER(certificate)))`, and the payload
JSON carries `aud` = the token endpoint URL, `iss` = `sub` = clientId, a
`jti`, `nbf` = now and `exp` = now + 3600. -/
theorem c3_assertion_format (p : CryptoPrims) (clientId tenantId : Str) (now : Int)
    (hkey : p.readKeyOk = true) (hcert : p.readCertOk = true)
    (hsign : p.signOk = true)
    (hth : base64UrlEncode (p.sha1 p.certDer) ≠ []) :
    generateClientAssertion p clientId tenantId now =
      base64UrlEncode (assertionHeaderJson (base64UrlEncode (p.sha1 p.certDer)))
        ++ ['.'] ++ base64UrlEncode (assertionPayloadJson clientId tenantId now)
        ++ ['.'] ++ base64UrlEncode (p.rsaSign
              (base64UrlEncode (assertionHeaderJson (base64UrlEncode (p.sha1 p.certDer)))
                ++ ['.'] ++ base64UrlEncode (assertionPayloadJson clientId tenantId now)))
    ∧ calculateCertificateThumbprint p = base64UrlEncode (p.sha1 p.certDer)
    ∧ assertionHeaderJson (calculateCertificateThumbprint p) =
        str "\x7b\"alg\":\"RS256\",\"typ\":\"JWT\",\"x5t\":\""
          ++ calculateCertificateThumbprint p ++ str "\"\x7d"
    ∧ assertionPayloadJson clientId tenantId now =
        str "\x7b\"aud\":\"" ++ tokenEndpoint tenantId ++ str "\",\"exp\":"
          ++ renderInt (now + 3600)
          ++ str ",\"iss\":\"" ++ clientId ++ str "\",\"jti\":\"" ++ jtiOf now
          ++ str "\",\"nbf\":" ++ renderInt now
          ++ str ",\"sub\":\"" ++ clientId ++ str "\"\x7d" := by
  refine ⟨?_, ?_, ?_, ?_⟩
  · simp only [generateClientAssertion, calculateCertificateThumbprint, hkey, hcert,
      if_true, not_true, ite_false, if_false, hsign, hth]
  · simp [calculateCertificateThumbprint, hcert]
  · simp only [assertionHeaderJson]
  · simp only [assertionPayloadJson, tokenEndpoint, str, List.append_assoc]
    rfl

/-- Witness for the C3 theorem at concrete inputs (the abstract SHA-1 and
RSA primitives instantiated with concrete functions). -/
theorem c3_assertion_format_witness :
    (primsFix.readKeyOk = true ∧ primsFix.readCertOk = true ∧
     primsFix.signOk = true ∧ base64UrlEncode (primsFix.sha1 primsFix.certDer) ≠ []) ∧
    generateClientAssertion primsFix (str "cid") (str "tid") 1700000000 =
      base64UrlEncode (assertionHeaderJson (base64UrlEncode (primsFix.sha1 primsFix.certDer)))
        ++ ['.'] ++ base64UrlEncode (assertionPayloadJson (str "cid") (str "tid") 1700000000)
        ++ ['.'] ++ base64UrlEncode (primsFix.rsaSign
              (base64UrlEncode (assertionHeaderJson
                  (base64UrlEncode (primsFix.sha1 primsFix.certDer)))
                ++ ['.'] ++ base64UrlEncode
                      (assertionPayloadJson (str "cid") (str "tid") 1700000000))) :=
  ⟨⟨by decide, by decide, by decide, by decide⟩,
   (c3_assertion_format primsFix (str "cid") (str "tid") 1700000000
      (by decide) (by decide) (by decide) (by decide)).1⟩

/-- The certificate-strategy body is exactly the wire rendering of its
parameter list. -/
theorem certPostData_eq_renderParams (cfg : OAuthConfig) (rt ca : Str) :
    certPostData cfg rt ca = renderParams (certParams cfg rt ca) := by
  by_cases h : cfg.scope = []
  · simp only [certPostData, certParams, h, ne_eq, not_true_eq_false, if_false,
      List.append_nil, List.cons_append, List.nil_append, renderParams, List.append_assoc]
    rfl
  · simp only [certPostData, certParams, ne_eq, h, not_false_eq_true, if_true,
      List.cons_append, List.nil_append, renderParams, List.append_assoc]
    rfl

/-- The secret-strategy body is exactly the wire rendering of its parameter
list. -/
theorem secretPostData_eq_renderParams (cfg : OAuthConfig) (rt : Str) :
    secretPostData cfg rt = renderParams (secretParams cfg rt) := by
  by_cases h : cfg.scope = []
  · simp only [secretPostData, secretParams, h, ne_eq, not_true_eq_false, if_false,
      List.append_nil, List.cons_append, List.nil_append, renderParams, List.append_assoc]
    rfl
  · simp only [secretPostData, secretParams, ne_eq, h, not_false_eq_true, if_true,
      List.cons_append, List.nil_append, renderParams, List.append_assoc]
    rfl

/-- **C4**: the certificate strategy is selected whenever both a certificate
path and a private key path are configured — regardless of a configured
secret — and its POST body carries `client_assertion_type` and
`client_assertion` and never a `client_secret` parameter; with only a secret
configured the secret strategy is used; with neither, no request is made and
the refresh fails. -/
theorem c4_strategy_selection (cfg : OAuthConfig) (p : CryptoPrims) (now : Int)
    (tok : OAuthTokenData) (resp : Option (Int × Str)) (fsOk : Bool)
    (hc : cfg.clientId ≠ []) (ht : cfg.tenantId ≠ []) :
    (cfg.certificatePath ≠ [] → cfg.privateKeyPath ≠ [] →
      (generateClientAssertion p cfg.clientId cfg.tenantId now ≠ [] →
        refreshPostBody cfg p now tok =
          some (renderParams (certParams cfg tok.refreshToken
            (generateClientAssertion p cfg.clientId cfg.tenantId now)))) ∧
      str "client_assertion" ∈ (certParams cfg tok.refreshToken
          (generateClientAssertion p cfg.clientId cfg.tenantId now)).map Prod.fst ∧
      str "client_assertion_type" ∈ (certParams cfg tok.refreshToken
          (generateClientAssertion p cfg.clientId cfg.tenantId now)).map Prod.fst ∧
      str "client_secret" ∉ (certParams cfg tok.refreshToken
          (generateClientAssertion p cfg.clientId cfg.tenantId now)).map Prod.fst) ∧
    ((cfg.certificatePath = [] ∨ cfg.privateKeyPath = []) → cfg.clientSecret ≠ [] →
      refreshPostBody cfg p now tok =
        some (renderParams (secretParams cfg tok.refreshToken)) ∧
      str "client_secret" ∈ (secretParams cfg tok.refreshToken).map Prod.fst) ∧
    ((cfg.certificatePath = [] ∨ cfg.privateKeyPath = []) → cfg.clientSecret = [] →
      refreshPostBody cfg p now tok = none ∧
      refreshAccessToken cfg p now resp fsOk tok = (false, tok)) := by
  refine ⟨?_, ?_, ?_⟩
  · intro h1 h2
    refine ⟨?_, ?_, ?_, ?_⟩
    · intro hca
      rw [← certPostData_eq_renderParams]
      simp [refreshPostBody, hc, ht, h1, h2, hca]
    · by_cases h : cfg.scope = [] <;> simp [certParams, h]
    · by_cases h : cfg.scope = [] <;> simp [certParams, h]
    · by_cases h : cfg.scope = [] <;> simp [certParams, h] <;> decide
  · intro h1 h2
    have hno : ¬ (cfg.certificatePath ≠ [] ∧ cfg.privateKeyPath ≠ []) := by
      rcases h1 with h | h <;> simp [h]
    constructor
    · rw [← secretPostData_eq_renderParams]
      simp [refreshPostBody, hc, ht, hno, h2]
    · by_cases h : cfg.scope = [] <;> simp [secretParams, h]
  · intro h1 h2
    have hno : ¬ (cfg.certificatePath ≠ [] ∧ cfg.privateKeyPath ≠ []) := by
      rcases h1 with h | h <;> simp [h]
    constructor
    · simp [refreshPostBody, hc, ht, hno, h2]
    · simp [refreshAccessToken, hc, ht, hno, h2]

/-- Witness for the C4 theorem: with both certificate paths and a secret
configured, the refresh body is the certificate-strategy body and its
parameters do not include `client_secret`. -/
theorem c4_strategy_selection_witness :
    (cfgBothTrust.clientId ≠ [] ∧ cfgBothTrust.tenantId ≠ []) ∧
    str "client_secret" ∉ (certParams cfgBothTrust (str "r")
      (generateClientAssertion primsFix cfgBothTrust.clientId cfgBothTrust.tenantId
        1700000000)).map Prod.fst :=
  ⟨⟨by decide, by decide⟩,
   ((c4_strategy_selection cfgBothTrust primsFix 1700000000
      { accessToken := str "a", refreshToken := str "r", expiresIn := 3600, expiresAt := 0 }
      none true (by decide) (by decide)).1 (by decide) (by decide)).2.2.2⟩

/-- **C6**: after a successful token exchange, a present non-empty
`refresh_token` in the response replaces the stored one; an absent or
empty one leaves the stored `refreshToken` unchanged. -/
theorem c6_refresh_token_rotation (tok : OAuthTokenData) (now : Int) (fsOk : Bool)
    (status : Int) (body : Str)
    (hst : 200 ≤ status ∧ status < 300)
    (hat : ∃ a, parseJsonString body (str "access_token") = some a) :
    (∀ s, parseJsonString body (str "refresh_token") = some s → s ≠ [] →
      (performTokenRequest tok now (some (status, body)) fsOk).2.refreshToken = s) ∧
    ((parseJsonString body (str "refresh_token") = none ∨
      parseJsonString body (str "refresh_token") = some []) →
      (performTokenRequest tok now (some (status, body)) fsOk).2.refreshToken
        = tok.refreshToken) := by
  obtain ⟨a, ha⟩ := hat
  have hcond : ¬ (status < 200 ∨ 300 ≤ status) := by omega
  constructor
  · intro s hs hsne
    simp [performTokenRequest, hcond, ha, hs, hsne]
  · rintro (h | h) <;> simp [performTokenRequest, hcond, ha, h]

/-- Witness for the C6 theorem: a concrete rotating response. -/
theorem c6_refresh_token_rotation_witness :
    ((200 ≤ (200 : Int) ∧ (200 : Int) < 300) ∧
      parseJsonString respRotate (str "access_token") = some (str "A2") ∧
      parseJsonString respRotate (str "refresh_token") = some (str "R2")) ∧
    (performTokenRequest tokFresh 1700000000 (some (200, respRotate)) true).2.refreshToken
      = str "R2" :=
  ⟨⟨⟨by decide, by decide⟩, by decide, by decide⟩,
   (c6_refresh_token_rotation tokFresh 1700000000 true 200 respRotate
      ⟨by decide, by decide⟩ ⟨str "A2", by decide⟩).1 (str "R2") (by decide) (by decide)⟩

/-- **C7**: `loadTokenFromFile` requires `access_token`; `refresh_token` is
optional (absence keeps the previous in-memory value, which is empty on the
first load); `expires_in` defaults to 3600; a timestamp above the
seconds-epoch plausibility bound 10^12 is divided by 1000; `expiresAt` is
`acquired_at + expiresIn` or `expires_at`; with neither timestamp field it
is the non-expiring sentinel 0. -/
theorem c7_load_field_semantics (tok0 : OAuthTokenData) (json : Str) :
    (parseJsonString json (str "access_token") = none →
      loadTokenFromFile tok0 json = none) ∧
    (∀ a, parseJsonString json (str "access_token") = some a →
      ∃ r, loadTokenFromFile tok0 json = some r ∧
        r.accessToken = a ∧
        r.refreshToken = (match parseJsonString json (str "refresh_token") with
          | some v => v
          | none => tok0.refreshToken) ∧
        r.expiresIn = (match parseJsonInt json (str "expires_in") with
          | some v => castToInt32 v
          | none => 3600) ∧
        r.expiresAt = (match parseJsonInt json (str "acquired_at") with
          | some t => (if t > 1000000000000 then t / 1000 else t) + r.expiresIn
          | none => match parseJsonInt json (str "expires_at") with
            | some e => if e > 1000000000000 then e / 1000 else e
            | none => 0)) := by
  constructor
  · intro h
    simp [loadTokenFromFile, h]
  · intro a ha
    simp only [loadTokenFromFile, ha]
    exact ⟨_, rfl, rfl, rfl, rfl, rfl⟩

/-- Witness for the C7 theorem: a millisecond `expires_at` is divided by
1000 and `expires_in` defaults to 3600. -/
theorem c7_load_field_semantics_witness :
    parseJsonString jsonMsFix (str "access_token") = some (str "A") ∧
    (∃ r, loadTokenFromFile {} jsonMsFix = some r ∧
        r.accessToken = str "A" ∧
        r.refreshToken = (match parseJsonString jsonMsFix (str "refresh_token") with
          | some v => v
          | none => (({} : OAuthTokenData)).refreshToken) ∧
        r.expiresIn = (match parseJsonInt jsonMsFix (str "expires_in") with
          | some v => castToInt32 v
          | none => 3600) ∧
        r.expiresAt = (match parseJsonInt jsonMsFix (str "acquired_at") with
          | some t => (if t > 1000000000000 then t / 1000 else t) + r.expiresIn
          | none => match parseJsonInt jsonMsFix (str "expires_at") with
            | some e => if e > 1000000000000 then e / 1000 else e
            | none => 0)) :=
  ⟨by decide, (c7_load_field_semantics {} jsonMsFix).2 (str "A") (by decide)⟩

/-- **C10**: when `acquired_at` parses, `expiresAt` is
`acquired_at + expiresIn` (with the millisecond adjustment) regardless of
any `expires_at` field, which is never consulted. -/
theorem c10_acquired_at_precedence (tok0 : OAuthTokenData) (json : Str)
    (a : Int) (acc : Str)
    (h1 : parseJsonString json (str "access_token") = some acc)
    (h2 : parseJsonInt json (str "acquired_at") = some a) :
    ∃ r, loadTokenFromFile tok0 json = some r ∧
      r.expiresAt = (if a > 1000000000000 then a / 1000 else a) + r.expiresIn := by
  simp only [loadTokenFromFile, h1, h2]
  exact ⟨_, rfl, rfl⟩

/-- Witness for the C10 theorem: both timestamp fields present, the result
follows `acquired_at` (100 + 3600), not `expires_at` (999). -/
theorem c10_acquired_at_precedence_witness :
    (parseJsonString jsonBothFix (str "access_token") = some (str "A") ∧
     parseJsonInt jsonBothFix (str "acquired_at") = some 100) ∧
    (∃ r, loadTokenFromFile {} jsonBothFix = some r ∧
      r.expiresAt = (if (100 : Int) > 1000000000000 then (100 : Int) / 1000 else 100)
        + r.expiresIn) :=
  ⟨⟨by decide, by decide⟩,
   c10_acquired_at_precedence {} jsonBothFix 100 (str "A") (by decide) (by decide)⟩

/-- A successful `performTokenRequest` happened on a real 2xx response whose
`access_token` field parsed, and the new record's access token is exactly
the parsed value. -/
theorem performTokenRequest_of_true (tok : OAuthTokenData) (now : Int)
    (resp : Option (Int × Str)) (fsOk : Bool)
    (h : (performTokenRequest tok now resp fsOk).1 = true) :
    ∃ status body v, resp = some (status, body) ∧
      parseJsonString body (str "access_token") = some v ∧
      (performTokenRequest tok now resp fsOk).2.accessToken = v := by
  match hr : resp with
  | none => simp [performTokenRequest] at h
  | some (status, body) =>
    by_cases hc : status < 200 ∨ 300 ≤ status
    · simp [performTokenRequest, hc] at h
    · match hp : parseJsonString body (str "access_token") with
      | none => simp [performTokenRequest, hc, hp] at h
      | some v =>
        exact ⟨status, body, v, rfl, hp, by simp [performTokenRequest, hc, hp]⟩

/-- A successful `refreshAccessToken` delegated to `performTokenRequest`,
and returns its result. -/
theorem refreshAccessToken_of_true (cfg : OAuthConfig) (p : CryptoPrims)
    (now : Int) (resp : Option (Int × Str)) (fsOk : Bool) (tok : OAuthTokenData)
    (h : (refreshAccessToken cfg p now resp fsOk tok).1 = true) :
    refreshAccessToken cfg p now resp fsOk tok = performTokenRequest tok now resp fsOk ∧
    (performTokenRequest tok now resp fsOk).1 = true := by
  have heq : refreshAccessToken cfg p now resp fsOk tok
      = performTokenRequest tok now resp fsOk := by
    unfold refreshAccessToken at h ⊢
    by_cases h1 : cfg.clientId = []
    · simp [h1] at h
    · by_cases h2 : cfg.tenantId = []
      · simp [h1, h2] at h
      · by_cases h3 : cfg.certificatePath ≠ [] ∧ cfg.privateKeyPath ≠ []
        · by_cases hca : generateClientAssertion p cfg.clientId cfg.tenantId now = []
          · simp [h1, h2, h3, hca] at h
          · simp [h1, h2, h3, hca]
        · by_cases h4 : cfg.clientSecret ≠ []
          · simp [h1, h2, h3, h4]
          · simp [h1, h2, h3, h4] at h
  exact ⟨heq, heq ▸ h⟩

/-- **C9** (amended): whenever `ensureValidToken` returns true,
`getAccessToken` returns a non-empty string, **provided** every 2xx exchange
response carries a non-empty `access_token` value — the code accepts an
empty `access_token` string from the endpoint without checking it. -/
theorem c9_access_token_nonempty (cfg : OAuthConfig) (p : CryptoPrims)
    (fc : Option Str) (fsOk : Bool) (st : MgrState) (now : Int)
    (resp : Option (Int × Str))
    (hresp : ∀ status body v, resp = some (status, body) →
      parseJsonString body (str "access_token") = some v → v ≠ [])
    (h : (ensureValidToken cfg p fc fsOk st now resp).1 = true) :
    getAccessToken (ensureValidToken cfg p fc fsOk st now resp).2.2 ≠ [] := by
  have main : ∀ st1 : MgrState,
      (if st1.token.accessToken = [] then ((false, false, st1) : Bool × Bool × MgrState)
        else if st1.token.refreshToken = [] then
          if st1.token.expiresAt = 0 ∨ now < st1.token.expiresAt then (true, false, st1)
          else (false, false, st1)
        else if st1.token.expiresAt ≠ 0 ∧ now < st1.token.expiresAt - 300 then
          (true, false, st1)
        else ((refreshAccessToken cfg p now resp fsOk st1.token).1, true,
              { tokenLoaded := true,
                token := (refreshAccessToken cfg p now resp fsOk st1.token).2 })).1 = true →
      (if st1.token.accessToken = [] then ((false, false, st1) : Bool × Bool × MgrState)
        else if st1.token.refreshToken = [] then
          if st1.token.expiresAt = 0 ∨ now < st1.token.expiresAt then (true, false, st1)
          else (false, false, st1)
        else if st1.token.expiresAt ≠ 0 ∧ now < st1.token.expiresAt - 300 then
          (true, false, st1)
        else ((refreshAccessToken cfg p now resp fsOk st1.token).1, true,
              { tokenLoaded := true,
                token := (refreshAccessToken cfg p now resp fsOk st1.token).2 })).2.2.token.accessToken
        ≠ [] := by
    intro st1 h1
    by_cases hAT : st1.token.accessToken = []
    · simp [hAT] at h1
    · by_cases hRT : st1.token.refreshToken = []
      · by_cases hEx : st1.token.expiresAt = 0 ∨ now < st1.token.expiresAt
        · simp [hAT, hRT, hEx]
        · simp [hAT, hRT, hEx] at h1
      · by_cases hFr : st1.token.expiresAt ≠ 0 ∧ now < st1.token.expiresAt - 300
        · simp [hAT, hRT, hFr]
        · have h' : (refreshAccessToken cfg p now resp fsOk st1.token).1 = true := by
            simpa [hAT, hRT, hFr] using h1
          obtain ⟨heq, hperf⟩ :=
            refreshAccessToken_of_true cfg p now resp fsOk st1.token h'
          obtain ⟨status, body, v, hrsp, hparse, hacc⟩ :=
            performTokenRequest_of_true st1.token now resp fsOk hperf
          have hvne : v ≠ [] := hresp status body v hrsp hparse
          simp only [hAT, hRT, hFr, ite_false, if_false]
          rw [heq, hacc]
          exact hvne
  simp only [ensureValidToken, getAccessToken] at h ⊢
  by_cases hL : st.tokenLoaded
  · simp only [hL, if_true, ite_true] at h ⊢
    exact main st h
  · simp only [hL, if_false, ite_false, Bool.false_eq_true] at h ⊢
    match hfc : fc with
    | none => simp at h
    | some js =>
      dsimp only at h ⊢
      match hload : loadTokenFromFile st.token js with
      | none => simp [hload] at h
      | some t =>
        rw [hload] at h
        exact main { tokenLoaded := true, token := t } h

/-- Witness for the C9 theorem: no exchange happens (fresh token), the
response hypothesis holds vacuously. -/
theorem c9_access_token_nonempty_witness :
    ((∀ status body v, (none : Option (Int × Str)) = some (status, body) →
        parseJsonString body (str "access_token") = some v → v ≠ []) ∧
      (ensureValidToken cfgSecretOnly primsFix none true ⟨true, tokFresh⟩
          1700000000 none).1 = true) ∧
    getAccessToken (ensureValidToken cfgSecretOnly primsFix none true
        ⟨true, tokFresh⟩ 1700000000 none).2.2 ≠ [] :=
  ⟨⟨fun _ _ _ hc => Option.noConfusion hc, by decide⟩,
   c9_access_token_nonempty cfgSecretOnly primsFix none true ⟨true, tokFresh⟩
      1700000000 none (fun _ _ _ hc => Option.noConfusion hc) (by decide)⟩

/-! ## List toolkit for the round-trip proof -/

theorem head?_append_ne_nil {l t : Str} (h : l ≠ []) : (l ++ t).head? = l.head? := by
  cases l with
  | nil => exact absurd rfl h
  | cons c cs => rfl

/-- A prefix of `x ++ y` is a prefix of `x`, or covers `x` and continues
into `y`. -/
theorem prefix_append_cases {p x y : Str} :
    p <+: x ++ y ↔ p <+: x ∨ (x <+: p ∧ p.drop x.length <+: y) := by
  constructor
  · intro h
    by_cases hl : p.length ≤ x.length
    · left
      rw [List.prefix_iff_eq_take] at h ⊢
      rw [List.take_append_of_le_length hl] at h
      exact h
    · right
      push_neg at hl
      obtain ⟨t, ht⟩ := h
      constructor
      · rw [List.prefix_iff_eq_take]
        have hta := congrArg (List.take x.length) ht
        rw [List.take_append_of_le_length (le_of_lt hl), List.take_left] at hta
        exact hta.symm
      · refine ⟨t, ?_⟩
        have hda := congrArg (List.drop x.length) ht
        rw [List.drop_append_of_le_length (le_of_lt hl), List.drop_left] at hda
        exact hda
  · rintro (h | ⟨h1, h2⟩)
    · exact h.trans (List.prefix_append x y)
    · obtain ⟨s, hs⟩ := h1
      have hdrop : p.drop x.length = s := by rw [← hs, List.drop_left]
      rw [← hs, List.prefix_append_right_inj]
      rw [hdrop] at h2
      exact h2

/-- An occurrence of `pat` found wholly inside `lit` is the first occurrence
in `lit ++ rest`. -/
theorem findSub_append_of_lt (pat lit rest : Str) (i : Nat)
    (h : findSub pat lit = some i) (hfit : i + pat.length ≤ lit.length) :
    findSub pat (lit ++ rest) = some i := by
  induction lit generalizing i with
  | nil => simp [findSub] at h
  | cons c t ih =>
    rw [findSub] at h
    rw [List.cons_append, findSub]
    by_cases hp : pat.isPrefixOf (c :: t)
    · rw [if_pos hp] at h
      have hp' : pat <+: c :: t := List.isPrefixOf_iff_prefix.mp hp
      have hpre2 : pat <+: c :: (t ++ rest) := by
        rw [← List.cons_append]
        exact hp'.trans (List.prefix_append _ _)
      rw [if_pos (List.isPrefixOf_iff_prefix.mpr hpre2)]
      simpa using h
    · rw [if_neg hp] at h
      rw [Option.map_eq_some'] at h
      obtain ⟨j, hj, hji⟩ := h
      have hfit' : j + pat.length ≤ t.length := by
        simp only [List.length_cons] at hfit
        omega
      have hcond : ¬ List.isPrefixOf pat (c :: (t ++ rest)) = true := by
        rw [List.isPrefixOf_iff_prefix]
        intro hpre
        have hpre' : pat <+: (c :: t) ++ rest := by
          rw [List.cons_append]
          exact hpre
        rcases prefix_append_cases.mp hpre' with hx | ⟨hx, _⟩
        · exact hp (List.isPrefixOf_iff_prefix.mpr hx)
        · have hxl := hx.length_le
          simp only [List.length_cons] at hxl
          omega
      rw [if_neg hcond, ih j hj hfit']
      simpa using hji

/-- When no occurrence of `pat` starts strictly inside `a`, searching in
`a ++ b` is searching in `b` shifted by `a.length`. -/
theorem findSub_append_shift (pat a b : Str)
    (h : ∀ n, n < a.length → ¬ pat <+: (a.drop n ++ b)) :
    findSub pat (a ++ b) = (findSub pat b).map (· + a.length) := by
  induction a with
  | nil => cases hfb : findSub pat b <;> simp [hfb]
  | cons c t ih =>
    rw [List.cons_append, findSub]
    have h0 : ¬ pat <+: c :: (t ++ b) := by
      have h' := h 0 (by simp)
      rw [List.drop_zero, List.cons_append] at h'
      exact h'
    rw [if_neg (fun hb => h0 (List.isPrefixOf_iff_prefix.mp hb))]
    have hsh : ∀ n, n < t.length → ¬ pat <+: (t.drop n ++ b) := by
      intro n hn
      have h' := h (n + 1) (by simp only [List.length_cons]; omega)
      simpa using h'
    rw [ih hsh]
    cases hfb : findSub pat b <;> simp [hfb, Nat.add_assoc]

/-- First quote after a quote-free block. -/
theorem findSub_quote_token (t q : Str) (hq : '"' ∉ t) (hh : q.head? = some '"') :
    findSub ['"'] (t ++ q) = some t.length := by
  induction t with
  | nil =>
    cases q with
    | nil => simp at hh
    | cons c cs =>
      have hc : c = '"' := by simpa using hh
      subst hc
      simp [findSub, List.isPrefixOf]
  | cons c cs ih =>
    rw [List.cons_append, findSub]
    have hc : c ≠ '"' := fun hce => hq (hce ▸ List.mem_cons_self c cs)
    have hcond : ¬ (['"'] : Str).isPrefixOf (c :: (cs ++ q)) := by
      rw [List.isPrefixOf_iff_prefix]
      intro hpre
      obtain ⟨s, hs⟩ := hpre
      rw [List.cons_append, List.nil_append] at hs
      exact hc (by injection hs with h1 _; exact h1.symm)
    rw [if_neg hcond, ih (fun hm => hq (List.mem_cons_of_mem c hm))]
    simp

/-- No occurrence of a pattern starting with `c` begins inside a block that
does not contain `c`. -/
theorem no_occur_head_mismatch (T Z pat : Str) (c : Char)
    (hpat : pat.head? = some c) (hT : c ∉ T) :
    ∀ n, n < T.length → ¬ pat <+: (T.drop n ++ Z) := by
  intro n hn h
  have hTn : T.drop n ≠ [] := by
    intro he
    have := congrArg List.length he
    simp only [List.length_drop, List.length_nil] at this
    omega
  have hpne : pat ≠ [] := by
    intro he
    rw [he] at hpat
    simp at hpat
  obtain ⟨s, hs⟩ := h
  have h1 : (T.drop n ++ Z).head? = some c := by
    rw [← hs, head?_append_ne_nil hpne, hpat]
  rw [head?_append_ne_nil hTn, List.head?_drop] at h1
  have h2 : T.get? n = some c := by
    rw [List.get?_eq_getElem?]
    exact h1
  exact hT (List.get?_mem h2)

/-- If a pattern containing a quote is a prefix of quote-free block `T`
followed by `Z` starting with a quote, then `T` is the prefix of the pattern
that stops exactly at a quote position of the pattern. -/
theorem token_seam_cases (T q Z : Str) (hq : '"' ∉ T) (hquote : '"' ∈ q)
    (hZ : Z.head? = some '"') (h : q <+: T ++ Z) :
    ∃ k, k < q.length ∧ T = q.take k ∧ q.get? k = some '"' := by
  rcases prefix_append_cases.mp h with h1 | ⟨h1, h2⟩
  · exact absurd (h1.subset hquote) hq
  · have hlen : T.length < q.length := by
      by_contra hle
      push_neg at hle
      have heq := h1.eq_of_length_le hle
      exact hq (heq ▸ hquote)
    refine ⟨T.length, hlen, List.prefix_iff_eq_take.mp h1, ?_⟩
    have hne : q.drop T.length ≠ [] := by
      intro he
      have := congrArg List.length he
      simp only [List.length_drop, List.length_nil] at this
      omega
    obtain ⟨s, hs⟩ := h2
    have h3 : (q.drop T.length).head? = some '"' := by
      rw [← head?_append_ne_nil hne (t := s), hs, hZ]
    rw [List.head?_drop] at h3
    rw [List.get?_eq_getElem?]
    exact h3

/-- `findP` over a block where the predicate is everywhere false. -/
theorem findP_append_shift (p : Char → Bool) (a b : Str)
    (h : ∀ c ∈ a, p c = false) :
    findP p (a ++ b) = (findP p b).map (· + a.length) := by
  induction a with
  | nil => cases hfb : findP p b <;> simp [hfb]
  | cons c t ih =>
    rw [List.cons_append, findP, h c (List.mem_cons_self c t)]
    simp only [Bool.false_eq_true, if_false]
    rw [ih (fun d hd => h d (List.mem_cons_of_mem c hd))]
    cases hfb : findP p b <;> simp [hfb, Nat.add_assoc]

theorem findP_cons_true (p : Char → Bool) (c : Char) (t : Str) (h : p c = true) :
    findP p (c :: t) = some 0 := by
  rw [findP, h]
  simp

theorem drop_append_len (a b : Str) (k : Nat) :
    (a ++ b).drop (a.length + k) = b.drop k := by
  induction a with
  | nil => simp
  | cons c t ih => simp [Nat.succ_add, ih]

/-- Navigation form of `drop_append_len` with the index given as any
expression provably equal to `a.length + k`. -/
theorem drop_app (a b : Str) (n k : Nat) (h : n = a.length + k) :
    (a ++ b).drop n = b.drop k := by
  rw [h, drop_append_len]

/-! ## Properties of the decimal rendering -/

theorem renderNatAux_irrel (f₁ f₂ n : Nat) (acc : Str) (h₁ : n < f₁) (h₂ : n < f₂) :
    renderNatAux f₁ n acc = renderNatAux f₂ n acc := by
  induction f₁ generalizing f₂ n acc with
  | zero => omega
  | succ g ih =>
    cases f₂ with
    | zero => omega
    | succ g₂ =>
      rw [renderNatAux, renderNatAux]
      by_cases hn : n < 10
      · rw [if_pos hn, if_pos hn]
      · rw [if_neg hn, if_neg hn]
        have h10 : n / 10 * 10 ≤ n := Nat.div_mul_le_self n 10
        exact ih g₂ (n / 10) _ (by omega) (by omega)

theorem renderNatAux_acc (f n : Nat) (acc : Str) (h : n < f) :
    renderNatAux f n acc = renderNatAux f n [] ++ acc := by
  induction f generalizing n acc with
  | zero => omega
  | succ g ih =>
    rw [renderNatAux, renderNatAux]
    by_cases hn : n < 10
    · rw [if_pos hn, if_pos hn]
      rfl
    · rw [if_neg hn, if_neg hn]
      have h10 : n / 10 * 10 ≤ n := Nat.div_mul_le_self n 10
      have hq : n / 10 < g := by omega
      rw [ih (n / 10) _ hq, ih (n / 10) (natDigitChar n :: []) hq, List.append_assoc]
      rfl

theorem renderNat_small (n : Nat) (h : n < 10) : renderNat n = [natDigitChar n] := by
  rw [renderNat, renderNatAux, if_pos h]

theorem renderNat_step (n : Nat) (h : 10 ≤ n) :
    renderNat n = renderNat (n / 10) ++ [natDigitChar n] := by
  have h1 : renderNat n = renderNatAux n (n / 10) [natDigitChar n] := by
    rw [renderNat, renderNatAux, if_neg (by omega)]
  have hq : n / 10 < n := Nat.div_lt_self (by omega) (by omega)
  rw [h1, renderNatAux_acc _ _ _ hq,
    renderNatAux_irrel n (n / 10 + 1) (n / 10) [] hq (Nat.lt_succ_self _)]
  rfl

theorem renderNat_ne_nil (n : Nat) : renderNat n ≠ [] := by
  by_cases h : n < 10
  · rw [renderNat_small n h]
    simp
  · rw [renderNat_step n (by omega)]
    simp

theorem natDigitChar_mem (n : Nat) : natDigitChar n ∈ str "0123456789" := by
  have h : n % 10 < 10 := Nat.mod_lt _ (by omega)
  unfold natDigitChar
  generalize hm : n % 10 = m at h ⊢
  interval_cases m <;> decide

theorem renderNat_mem_digits (n : Nat) : ∀ c ∈ renderNat n, c ∈ str "0123456789" := by
  induction n using Nat.strong_induction_on with
  | _ n ih =>
    by_cases h : n < 10
    · rw [renderNat_small n h]
      intro c hc
      rw [List.mem_singleton] at hc
      exact hc ▸ natDigitChar_mem n
    · rw [renderNat_step n (by omega)]
      intro c hc
      rcases List.mem_append.mp hc with hc | hc
      · exact ih (n / 10) (Nat.div_lt_self (by omega) (by omega)) c hc
      · rw [List.mem_singleton] at hc
        exact hc ▸ natDigitChar_mem n

theorem digitsVal_append_digit (l : Str) (c : Char) :
    digitsVal (l ++ [c]) = digitsVal l * 10 + digitVal c := by
  simp [digitsVal, List.foldl_append]

theorem digitVal_natDigitChar (n : Nat) : digitVal (natDigitChar n) = n % 10 := by
  have h : n % 10 < 10 := Nat.mod_lt _ (by omega)
  unfold natDigitChar digitVal
  generalize hm : n % 10 = m at h ⊢
  interval_cases m <;> decide

theorem digitsVal_renderNat (n : Nat) : digitsVal (renderNat n) = n := by
  induction n using Nat.strong_induction_on with
  | _ n ih =>
    by_cases h : n < 10
    · rw [renderNat_small n h]
      have : digitsVal [natDigitChar n] = digitVal (natDigitChar n) := by
        simp [digitsVal]
      rw [this, digitVal_natDigitChar]
      omega
    · rw [renderNat_step n (by omega), digitsVal_append_digit,
        ih (n / 10) (Nat.div_lt_self (by omega) (by omega)), digitVal_natDigitChar]
      omega

theorem stol_renderNat (n : Nat) (h : (n : Int) ≤ 9223372036854775807) :
    stol (renderNat n) = some (n : Int) := by
  have hd := renderNat_mem_digits n
  have hg : ∀ c ∈ str "0123456789", c.isDigit = true := by decide
  have hall : (renderNat n).all Char.isDigit = true := by
    rw [List.all_eq_true]
    intro c hc
    exact hg c (hd c hc)
  simp [stol, renderNat_ne_nil n, hall, digitsVal_renderNat n, h]

theorem renderInt_nonneg (i : Int) (h : 0 ≤ i) : renderInt i = renderNat i.toNat := by
  rw [renderInt, if_neg (by omega)]

theorem not_mem_renderNat (c : Char) (hc : c ∉ str "0123456789") (n : Nat) :
    c ∉ renderNat n :=
  fun hmem => hc (renderNat_mem_digits n c hmem)

/-! ## Parsing the saved file -/

theorem savedJson_decomp (tok : OAuthTokenData) (t : Int) :
    savedJson tok t = segA0 ++ (tok.accessToken ++ (segA1 ++ (tok.refreshToken ++
      (segA2 ++ (renderInt tok.expiresIn ++ (segA3 ++ (renderInt t ++ segA4))))))) := by
  simp only [savedJson, saveWrites, List.foldl_cons, List.foldl_nil, List.nil_append,
    List.append_assoc, segA0, segA1, segA2, segA3, segA4, str]
  rfl

theorem parse_access_on_saved (tok : OAuthTokenData) (t : Int)
    (hq : '"' ∉ tok.accessToken) :
    parseJsonString (savedJson tok t) (str "access_token") = some tok.accessToken := by
  rw [savedJson_decomp]
  set R : Str := segA1 ++ (tok.refreshToken ++
    (segA2 ++ (renderInt tok.expiresIn ++ (segA3 ++ (renderInt t ++ segA4))))) with hR
  have hR0 : R.head? = some '"' := by rw [hR]; rfl
  have hfind : findSub ('"' :: str "access_token" ++ ['"'])
      (segA0 ++ (tok.accessToken ++ R)) = some 4 :=
    findSub_append_of_lt _ _ _ 4 (by decide) (by decide)
  have hcolon : strFind (segA0 ++ (tok.accessToken ++ R)) [':'] 4 = some 18 := by
    rw [strFind, List.drop_append_of_le_length (by decide : 4 ≤ segA0.length),
      findSub_append_of_lt _ _ _ 14 (by decide) (by decide)]
    rfl
  have hqs : strFind (segA0 ++ (tok.accessToken ++ R)) ['"'] (18 + 1) = some 20 := by
    rw [strFind, List.drop_append_of_le_length (by decide : 19 ≤ segA0.length),
      findSub_append_of_lt _ _ _ 1 (by decide) (by decide)]
    rfl
  have hlen0 : segA0.length = 21 := by decide
  have hdrop21 : (segA0 ++ (tok.accessToken ++ R)).drop 21 = tok.accessToken ++ R := by
    rw [← hlen0, List.drop_left]
  have hqe : strFind (segA0 ++ (tok.accessToken ++ R)) ['"'] (20 + 1)
      = some (tok.accessToken.length + 21) := by
    rw [strFind, show 20 + 1 = 21 from rfl, hdrop21,
      findSub_quote_token _ _ hq hR0]
    rfl
  simp only [parseJsonString, hfind, hcolon, hqs, hqe]
  rw [substr, show 20 + 1 = 21 from rfl, hdrop21,
    show tok.accessToken.length + 21 - 20 - 1 = tok.accessToken.length by omega,
    List.take_left]

theorem parse_refresh_on_saved (tok : OAuthTokenData) (t : Int)
    (hq1 : '"' ∉ tok.accessToken) (hq2 : '"' ∉ tok.refreshToken)
    (h3 : tok.accessToken ≠ str "refresh_token") :
    parseJsonString (savedJson tok t) (str "refresh_token") = some tok.refreshToken := by
  rw [savedJson_decomp]
  set R2 : Str := segA2 ++ (renderInt tok.expiresIn ++ (segA3 ++ (renderInt t ++ segA4)))
    with hR2
  have hR2head : R2.head? = some '"' := by rw [hR2]; rfl
  have hlen0 : segA0.length = 21 := by decide
  have hlen1 : segA1.length = 23 := by decide
  have hP1 : ∀ n, n < segA0.length →
      ¬ ('"' :: str "refresh_token" ++ ['"'] : Str) <+:
        (segA0.drop n ++ (tok.accessToken ++ (segA1 ++ (tok.refreshToken ++ R2)))) := by
    have d1 : ∀ n, n < 21 →
        ¬ (List.isPrefixOf ('"' :: str "refresh_token" ++ ['"']) (segA0.drop n) = true) := by
      decide
    have d2 : ∀ n, n < 21 →
        List.isPrefixOf (segA0.drop n) ('"' :: str "refresh_token" ++ ['"']) = true →
        n = 20 := by decide
    have d3 : ∀ k, k < 14 →
        (str "refresh_token" ++ ['"'] : Str).get? k = some '"' → k = 13 := by decide
    intro n hn h
    rw [hlen0] at hn
    rcases prefix_append_cases.mp h with h1 | ⟨h1, h2⟩
    · exact d1 n hn (List.isPrefixOf_iff_prefix.mpr h1)
    · have hn20 : n = 20 := d2 n hn (List.isPrefixOf_iff_prefix.mpr h1)
      subst hn20
      rw [show (segA0.drop 20).length = 1 by decide] at h2
      have h2' : (str "refresh_token" ++ ['"'] : Str) <+:
          (tok.accessToken ++ (segA1 ++ (tok.refreshToken ++ R2))) := h2
      obtain ⟨k, hk, hTk, hqk⟩ := token_seam_cases tok.accessToken
        (str "refresh_token" ++ ['"']) (segA1 ++ (tok.refreshToken ++ R2))
        hq1 (by decide) rfl h2'
      rw [show (str "refresh_token" ++ ['"'] : Str).length = 14 by decide] at hk
      have hk13 : k = 13 := d3 k hk hqk
      subst hk13
      rw [show (str "refresh_token" ++ ['"'] : Str).take 13 = str "refresh_token"
        by decide] at hTk
      exact h3 hTk
  have hfind : findSub ('"' :: str "refresh_token" ++ ['"'])
      (segA0 ++ (tok.accessToken ++ (segA1 ++ (tok.refreshToken ++ R2))))
      = some (tok.accessToken.length + 26) := by
    rw [findSub_append_shift _ _ _ hP1,
      findSub_append_shift _ _ _ (no_occur_head_mismatch tok.accessToken
        (segA1 ++ (tok.refreshToken ++ R2)) ('"' :: str "refresh_token" ++ ['"'])
        '"' rfl hq1),
      findSub_append_of_lt _ _ _ 5 (by decide) (by decide)]
    simp only [Option.map_some']
    exact congrArg some (by rw [hlen0]; omega)
  have hcolon : strFind (segA0 ++ (tok.accessToken ++ (segA1 ++ (tok.refreshToken ++ R2))))
      [':'] (tok.accessToken.length + 26) = some (tok.accessToken.length + 41) := by
    rw [strFind, drop_app segA0 _ _ (tok.accessToken.length + 5) (by rw [hlen0]; omega),
      drop_app tok.accessToken _ _ 5 (by omega),
      List.drop_append_of_le_length (by decide : 5 ≤ segA1.length),
      findSub_append_of_lt _ _ _ 15 (by decide) (by decide)]
    simp only [Option.map_some']
    exact congrArg some (by omega)
  have hqs : strFind (segA0 ++ (tok.accessToken ++ (segA1 ++ (tok.refreshToken ++ R2))))
      ['"'] (tok.accessToken.length + 41 + 1) = some (tok.accessToken.length + 43) := by
    rw [strFind, drop_app segA0 _ _ (tok.accessToken.length + 21) (by rw [hlen0]; omega),
      drop_app tok.accessToken _ _ 21 (by omega),
      List.drop_append_of_le_length (by decide : 21 ≤ segA1.length),
      findSub_append_of_lt _ _ _ 1 (by decide) (by decide)]
    simp only [Option.map_some']
    exact congrArg some (by omega)
  have hdropRT : (segA0 ++ (tok.accessToken ++ (segA1 ++ (tok.refreshToken ++ R2)))).drop
      (tok.accessToken.length + 43 + 1) = tok.refreshToken ++ R2 := by
    rw [drop_app segA0 _ _ (tok.accessToken.length + 23) (by rw [hlen0]; omega),
      drop_app tok.accessToken _ _ 23 (by omega),
      drop_app segA1 _ _ 0 (by rw [hlen1]),
      List.drop_zero]
  have hqe : strFind (segA0 ++ (tok.accessToken ++ (segA1 ++ (tok.refreshToken ++ R2))))
      ['"'] (tok.accessToken.length + 43 + 1)
      = some (tok.refreshToken.length + (tok.accessToken.length + 43 + 1)) := by
    rw [strFind, hdropRT, findSub_quote_token _ _ hq2 hR2head]
    rfl
  simp only [parseJsonString, hfind, hcolon, hqs, hqe]
  rw [substr, hdropRT,
    show tok.refreshToken.length + (tok.accessToken.length + 43 + 1)
      - (tok.accessToken.length + 43) - 1 = tok.refreshToken.length by omega,
    List.take_left]

theorem parse_expiresin_on_saved (tok : OAuthTokenData) (t : Int)
    (hq1 : '"' ∉ tok.accessToken) (hq2 : '"' ∉ tok.refreshToken)
    (h4 : tok.accessToken ≠ str "expires_in")
    (h6 : tok.refreshToken ≠ str "expires_in")
    (hei : 0 < tok.expiresIn) (hmax : tok.expiresIn ≤ 9223372036854775807) :
    parseJsonInt (savedJson tok t) (str "expires_in") = some tok.expiresIn := by
  rw [savedJson_decomp]
  set R3 : Str := segA3 ++ (renderInt t ++ segA4) with hR3
  have hlen0 : segA0.length = 21 := by decide
  have hlen1 : segA1.length = 23 := by decide
  have hlen2 : segA2.length = 19 := by decide
  have hD1digits : ∀ c ∈ renderInt tok.expiresIn, c ∈ str "0123456789" := by
    rw [renderInt_nonneg _ (le_of_lt hei)]
    exact renderNat_mem_digits _
  have hseg2head : (segA2 ++ (renderInt tok.expiresIn ++ R3)).head? = some '"' := by rfl
  -- the first occurrence of the key pattern
  have hP0 : ∀ n, n < segA0.length →
      ¬ ('"' :: str "expires_in" ++ ['"'] : Str) <+:
        (segA0.drop n ++ (tok.accessToken ++ (segA1 ++ (tok.refreshToken ++
          (segA2 ++ (renderInt tok.expiresIn ++ R3)))))) := by
    have d1 : ∀ n, n < 21 →
        ¬ (List.isPrefixOf ('"' :: str "expires_in" ++ ['"']) (segA0.drop n) = true) := by
      decide
    have d2 : ∀ n, n < 21 →
        List.isPrefixOf (segA0.drop n) ('"' :: str "expires_in" ++ ['"']) = true →
        n = 20 := by decide
    have d3 : ∀ k, k < 11 →
        (str "expires_in" ++ ['"'] : Str).get? k = some '"' → k = 10 := by decide
    intro n hn h
    rw [hlen0] at hn
    rcases prefix_append_cases.mp h with h1 | ⟨h1, h2⟩
    · exact d1 n hn (List.isPrefixOf_iff_prefix.mpr h1)
    · have hn20 : n = 20 := d2 n hn (List.isPrefixOf_iff_prefix.mpr h1)
      subst hn20
      rw [show (segA0.drop 20).length = 1 by decide] at h2
      have h2' : (str "expires_in" ++ ['"'] : Str) <+:
          (tok.accessToken ++ (segA1 ++ (tok.refreshToken ++
            (segA2 ++ (renderInt tok.expiresIn ++ R3))))) := h2
      obtain ⟨k, hk, hTk, hqk⟩ := token_seam_cases tok.accessToken
        (str "expires_in" ++ ['"'])
        (segA1 ++ (tok.refreshToken ++ (segA2 ++ (renderInt tok.expiresIn ++ R3))))
        hq1 (by decide) rfl h2'
      rw [show (str "expires_in" ++ ['"'] : Str).length = 11 by decide] at hk
      have hk10 : k = 10 := d3 k hk hqk
      subst hk10
      rw [show (str "expires_in" ++ ['"'] : Str).take 10 = str "expires_in"
        by decide] at hTk
      exact h4 hTk
  have hP2 : ∀ n, n < segA1.length →
      ¬ ('"' :: str "expires_in" ++ ['"'] : Str) <+:
        (segA1.drop n ++ (tok.refreshToken ++
          (segA2 ++ (renderInt tok.expiresIn ++ R3)))) := by
    have d1 : ∀ n, n < 23 →
        ¬ (List.isPrefixOf ('"' :: str "expires_in" ++ ['"']) (segA1.drop n) = true) := by
      decide
    have d2 : ∀ n, n < 23 →
        List.isPrefixOf (segA1.drop n) ('"' :: str "expires_in" ++ ['"']) = true →
        n = 22 := by decide
    have d3 : ∀ k, k < 11 →
        (str "expires_in" ++ ['"'] : Str).get? k = some '"' → k = 10 := by decide
    intro n hn h
    rw [hlen1] at hn
    rcases prefix_append_cases.mp h with h1 | ⟨h1, h2⟩
    · exact d1 n hn (List.isPrefixOf_iff_prefix.mpr h1)
    · have hn22 : n = 22 := d2 n hn (List.isPrefixOf_iff_prefix.mpr h1)
      subst hn22
      rw [show (segA1.drop 22).length = 1 by decide] at h2
      have h2' : (str "expires_in" ++ ['"'] : Str) <+:
          (tok.refreshToken ++ (segA2 ++ (renderInt tok.expiresIn ++ R3))) := h2
      obtain ⟨k, hk, hTk, hqk⟩ := token_seam_cases tok.refreshToken
        (str "expires_in" ++ ['"'])
        (segA2 ++ (renderInt tok.expiresIn ++ R3))
        hq2 (by decide) rfl h2'
      rw [show (str "expires_in" ++ ['"'] : Str).length = 11 by decide] at hk
      have hk10 : k = 10 := d3 k hk hqk
      subst hk10
      rw [show (str "expires_in" ++ ['"'] : Str).take 10 = str "expires_in"
        by decide] at hTk
      exact h6 hTk
  have hfind : findSub ('"' :: str "expires_in" ++ ['"'])
      (segA0 ++ (tok.accessToken ++ (segA1 ++ (tok.refreshToken ++
        (segA2 ++ (renderInt tok.expiresIn ++ R3))))))
      = some (tok.accessToken.length + (tok.refreshToken.length + 49)) := by
    rw [findSub_append_shift _ _ _ hP0,
      findSub_append_shift _ _ _ (no_occur_head_mismatch tok.accessToken
        (segA1 ++ (tok.refreshToken ++ (segA2 ++ (renderInt tok.expiresIn ++ R3))))
        ('"' :: str "expires_in" ++ ['"']) '"' rfl hq1),
      findSub_append_shift _ _ _ hP2,
      findSub_append_shift _ _ _ (no_occur_head_mismatch tok.refreshToken
        (segA2 ++ (renderInt tok.expiresIn ++ R3))
        ('"' :: str "expires_in" ++ ['"']) '"' rfl hq2),
      findSub_append_of_lt _ _ _ 5 (by decide) (by decide)]
    simp only [Option.map_some']
    exact congrArg some (by rw [hlen0, hlen1]; omega)
  have hcolon : strFind (segA0 ++ (tok.accessToken ++ (segA1 ++ (tok.refreshToken ++
      (segA2 ++ (renderInt tok.expiresIn ++ R3)))))) [':']
      (tok.accessToken.length + (tok.refreshToken.length + 49))
      = some (tok.accessToken.length + (tok.refreshToken.length + 61)) := by
    rw [strFind,
      drop_app segA0 _ _ (tok.accessToken.length + (tok.refreshToken.length + 28))
        (by rw [hlen0]; omega),
      drop_app tok.accessToken _ _ (tok.refreshToken.length + 28) (by omega),
      drop_app segA1 _ _ (tok.refreshToken.length + 5) (by rw [hlen1]; omega),
      drop_app tok.refreshToken _ _ 5 (by omega),
      List.drop_append_of_le_length (by decide : 5 ≤ segA2.length),
      findSub_append_of_lt _ _ _ 12 (by decide) (by decide)]
    simp only [Option.map_some']
    exact congrArg some (by omega)
  have hnum : findFirstOf (segA0 ++ (tok.accessToken ++ (segA1 ++ (tok.refreshToken ++
      (segA2 ++ (renderInt tok.expiresIn ++ R3)))))) (str "-0123456789")
      (tok.accessToken.length + (tok.refreshToken.length + 61) + 1)
      = some (tok.accessToken.length + (tok.refreshToken.length + 63)) := by
    obtain ⟨d, ds, hD1⟩ : ∃ d ds, renderInt tok.expiresIn = d :: ds := by
      rw [renderInt_nonneg _ (le_of_lt hei)]
      cases hD : renderNat tok.expiresIn.toNat with
      | nil => exact absurd hD (renderNat_ne_nil _)
      | cons d ds => exact ⟨d, ds, rfl⟩
    have hdset : (str "-0123456789").contains d = true := by
      have hg : ∀ c ∈ str "0123456789", (str "-0123456789").contains c = true := by decide
      exact hg d (hD1digits d (by rw [hD1]; exact List.mem_cons_self d ds))
    rw [findFirstOf,
      drop_app segA0 _ _ (tok.accessToken.length + (tok.refreshToken.length + 41))
        (by rw [hlen0]; omega),
      drop_app tok.accessToken _ _ (tok.refreshToken.length + 41) (by omega),
      drop_app segA1 _ _ (tok.refreshToken.length + 18) (by rw [hlen1]; omega),
      drop_app tok.refreshToken _ _ 18 (by omega),
      List.drop_append_of_le_length (by decide : 18 ≤ segA2.length),
      findP_append_shift _ _ _ (by decide), hD1, List.cons_append,
      findP_cons_true _ _ _ hdset]
    simp only [Option.map_some']
    exact congrArg some (by rw [show ((segA2.drop 18).length) = 1 by decide]; omega)
  have hdropD1 : (segA0 ++ (tok.accessToken ++ (segA1 ++ (tok.refreshToken ++
      (segA2 ++ (renderInt tok.expiresIn ++ R3)))))).drop
      (tok.accessToken.length + (tok.refreshToken.length + 63))
      = renderInt tok.expiresIn ++ R3 := by
    rw [drop_app segA0 _ _ (tok.accessToken.length + (tok.refreshToken.length + 42))
        (by rw [hlen0]; omega),
      drop_app tok.accessToken _ _ (tok.refreshToken.length + 42) (by omega),
      drop_app segA1 _ _ (tok.refreshToken.length + 19) (by rw [hlen1]; omega),
      drop_app tok.refreshToken _ _ 19 (by omega),
      drop_app segA2 _ _ 0 (by rw [hlen2]),
      List.drop_zero]
  have hD1false : ∀ c ∈ renderInt tok.expiresIn,
      (fun c => !(str "0123456789").contains c) c = false := by
    have hg : ∀ c ∈ str "0123456789", (!(str "0123456789").contains c) = false := by decide
    intro c hc
    exact hg c (hD1digits c hc)
  have hsegA3cons : R3 = ',' :: (str "\n  \"acquired_at\": " ++ (renderInt t ++ segA4)) := by
    rw [hR3, show segA3 = ',' :: str "\n  \"acquired_at\": " by decide, List.cons_append]
  have hend : findFirstNotOf (segA0 ++ (tok.accessToken ++ (segA1 ++ (tok.refreshToken ++
      (segA2 ++ (renderInt tok.expiresIn ++ R3)))))) (str "0123456789")
      (tok.accessToken.length + (tok.refreshToken.length + 63))
      = some ((renderInt tok.expiresIn).length +
          (tok.accessToken.length + (tok.refreshToken.length + 63))) := by
    rw [findFirstNotOf, hdropD1, findP_append_shift _ _ _ hD1false, hsegA3cons,
      findP_cons_true _ _ _ (by decide)]
    simp only [Option.map_some']
    exact congrArg some (by omega)
  simp only [parseJsonInt, hfind, hcolon, hnum, hend, Option.getD_some]
  rw [substr, hdropD1,
    show (renderInt tok.expiresIn).length +
        (tok.accessToken.length + (tok.refreshToken.length + 63))
      - (tok.accessToken.length + (tok.refreshToken.length + 63))
      = (renderInt tok.expiresIn).length by omega,
    List.take_left, renderInt_nonneg _ (le_of_lt hei),
    stol_renderNat _ (by rw [Int.toNat_of_nonneg (le_of_lt hei)]; exact hmax),
    Int.toNat_of_nonneg (le_of_lt hei)]

theorem parse_acquiredat_on_saved (tok : OAuthTokenData) (t : Int)
    (hq1 : '"' ∉ tok.accessToken) (hq2 : '"' ∉ tok.refreshToken)
    (h5 : tok.accessToken ≠ str "acquired_at")
    (h7 : tok.refreshToken ≠ str "acquired_at")
    (hei : 0 < tok.expiresIn) (ht0 : 0 ≤ t) (htmax : t ≤ 9223372036854775807) :
    parseJsonInt (savedJson tok t) (str "acquired_at") = some t := by
  rw [savedJson_decomp]
  have hlen0 : segA0.length = 21 := by decide
  have hlen1 : segA1.length = 23 := by decide
  have hlen2 : segA2.length = 19 := by decide
  have hlen3 : segA3.length = 19 := by decide
  have hD1digits : ∀ c ∈ renderInt tok.expiresIn, c ∈ str "0123456789" := by
    rw [renderInt_nonneg _ (le_of_lt hei)]
    exact renderNat_mem_digits _
  have hD2digits : ∀ c ∈ renderInt t, c ∈ str "0123456789" := by
    rw [renderInt_nonneg _ ht0]
    exact renderNat_mem_digits _
  have hqD1 : '"' ∉ renderInt tok.expiresIn := by
    intro hmem
    have hdig := hD1digits _ hmem
    revert hdig
    decide
  have hP0 : ∀ n, n < segA0.length →
      ¬ ('"' :: str "acquired_at" ++ ['"'] : Str) <+:
        (segA0.drop n ++ (tok.accessToken ++ (segA1 ++ (tok.refreshToken ++
          (segA2 ++ (renderInt tok.expiresIn ++ (segA3 ++ (renderInt t ++ segA4)))))))) := by
    have d1 : ∀ n, n < 21 →
        ¬ (List.isPrefixOf ('"' :: str "acquired_at" ++ ['"']) (segA0.drop n) = true) := by
      decide
    have d2 : ∀ n, n < 21 →
        List.isPrefixOf (segA0.drop n) ('"' :: str "acquired_at" ++ ['"']) = true →
        n = 20 := by decide
    have d3 : ∀ k, k < 12 →
        (str "acquired_at" ++ ['"'] : Str).get? k = some '"' → k = 11 := by decide
    intro n hn h
    rw [hlen0] at hn
    rcases prefix_append_cases.mp h with h1 | ⟨h1, h2⟩
    · exact d1 n hn (List.isPrefixOf_iff_prefix.mpr h1)
    · have hn20 : n = 20 := d2 n hn (List.isPrefixOf_iff_prefix.mpr h1)
      subst hn20
      rw [show (segA0.drop 20).length = 1 by decide] at h2
      have h2' : (str "acquired_at" ++ ['"'] : Str) <+:
          (tok.accessToken ++ (segA1 ++ (tok.refreshToken ++
            (segA2 ++ (renderInt tok.expiresIn ++ (segA3 ++ (renderInt t ++ segA4))))))) := h2
      obtain ⟨k, hk, hTk, hqk⟩ := token_seam_cases tok.accessToken
        (str "acquired_at" ++ ['"'])
        (segA1 ++ (tok.refreshToken ++ (segA2 ++ (renderInt tok.expiresIn ++
          (segA3 ++ (renderInt t ++ segA4))))))
        hq1 (by decide) rfl h2'
      rw [show (str "acquired_at" ++ ['"'] : Str).length = 12 by decide] at hk
      have hk11 : k = 11 := d3 k hk hqk
      subst hk11
      rw [show (str "acquired_at" ++ ['"'] : Str).take 11 = str "acquired_at"
        by decide] at hTk
      exact h5 hTk
  have hP2 : ∀ n, n < segA1.length →
      ¬ ('"' :: str "acquired_at" ++ ['"'] : Str) <+:
        (segA1.drop n ++ (tok.refreshToken ++ (segA2 ++ (renderInt tok.expiresIn ++
          (segA3 ++ (renderInt t ++ segA4)))))) := by
    have d1 : ∀ n, n < 23 →
        ¬ (List.isPrefixOf ('"' :: str "acquired_at" ++ ['"']) (segA1.drop n) = true) := by
      decide
    have d2 : ∀ n, n < 23 →
        List.isPrefixOf (segA1.drop n) ('"' :: str "acquired_at" ++ ['"']) = true →
        n = 22 := by decide
    have d3 : ∀ k, k < 12 →
        (str "acquired_at" ++ ['"'] : Str).get? k = some '"' → k = 11 := by decide
    intro n hn h
    rw [hlen1] at hn
    rcases prefix_append_cases.mp h with h1 | ⟨h1, h2⟩
    · exact d1 n hn (List.isPrefixOf_iff_prefix.mpr h1)
    · have hn22 : n = 22 := d2 n hn (List.isPrefixOf_iff_prefix.mpr h1)
      subst hn22
      rw [show (segA1.drop 22).length = 1 by decide] at h2
      have h2' : (str "acquired_at" ++ ['"'] : Str) <+:
          (tok.refreshToken ++ (segA2 ++ (renderInt tok.expiresIn ++
            (segA3 ++ (renderInt t ++ segA4))))) := h2
      obtain ⟨k, hk, hTk, hqk⟩ := token_seam_cases tok.refreshToken
        (str "acquired_at" ++ ['"'])
        (segA2 ++ (renderInt tok.expiresIn ++ (segA3 ++ (renderInt t ++ segA4))))
        hq2 (by decide) rfl h2'
      rw [show (str "acquired_at" ++ ['"'] : Str).length = 12 by decide] at hk
      have hk11 : k = 11 := d3 k hk hqk
      subst hk11
      rw [show (str "acquired_at" ++ ['"'] : Str).take 11 = str "acquired_at"
        by decide] at hTk
      exact h7 hTk
  have hP4 : ∀ n, n < segA2.length →
      ¬ ('"' :: str "acquired_at" ++ ['"'] : Str) <+:
        (segA2.drop n ++ (renderInt tok.expiresIn ++
          (segA3 ++ (renderInt t ++ segA4)))) := by
    have d1 : ∀ n, n < 19 →
        ¬ (List.isPrefixOf ('"' :: str "acquired_at" ++ ['"']) (segA2.drop n) = true) := by
      decide
    have d2 : ∀ n, n < 19 →
        ¬ (List.isPrefixOf (segA2.drop n) ('"' :: str "acquired_at" ++ ['"']) = true) := by
      decide
    intro n hn h
    rw [hlen2] at hn
    rcases prefix_append_cases.mp h with h1 | ⟨h1, _⟩
    · exact d1 n hn (List.isPrefixOf_iff_prefix.mpr h1)
    · exact d2 n hn (List.isPrefixOf_iff_prefix.mpr h1)
  have hfind : findSub ('"' :: str "acquired_at" ++ ['"'])
      (segA0 ++ (tok.accessToken ++ (segA1 ++ (tok.refreshToken ++
        (segA2 ++ (renderInt tok.expiresIn ++ (segA3 ++ (renderInt t ++ segA4))))))))
      = some (tok.accessToken.length + (tok.refreshToken.length +
          ((renderInt tok.expiresIn).length + 67))) := by
    rw [findSub_append_shift _ _ _ hP0,
      findSub_append_shift _ _ _ (no_occur_head_mismatch tok.accessToken
        (segA1 ++ (tok.refreshToken ++ (segA2 ++ (renderInt tok.expiresIn ++
          (segA3 ++ (renderInt t ++ segA4))))))
        ('"' :: str "acquired_at" ++ ['"']) '"' rfl hq1),
      findSub_append_shift _ _ _ hP2,
      findSub_append_shift _ _ _ (no_occur_head_mismatch tok.refreshToken
        (segA2 ++ (renderInt tok.expiresIn ++ (segA3 ++ (renderInt t ++ segA4))))
        ('"' :: str "acquired_at" ++ ['"']) '"' rfl hq2),
      findSub_append_shift _ _ _ hP4,
      findSub_append_shift _ _ _ (no_occur_head_mismatch (renderInt tok.expiresIn)
        (segA3 ++ (renderInt t ++ segA4))
        ('"' :: str "acquired_at" ++ ['"']) '"' rfl hqD1),
      findSub_append_of_lt _ _ _ 4 (by decide) (by decide)]
    simp only [Option.map_some']
    exact congrArg some (by rw [hlen0, hlen1, hlen2]; omega)
  have hcolon : strFind (segA0 ++ (tok.accessToken ++ (segA1 ++ (tok.refreshToken ++
      (segA2 ++ (renderInt tok.expiresIn ++ (segA3 ++ (renderInt t ++ segA4)))))))) [':']
      (tok.accessToken.length + (tok.refreshToken.length +
        ((renderInt tok.expiresIn).length + 67)))
      = some (tok.accessToken.length + (tok.refreshToken.length +
          ((renderInt tok.expiresIn).length + 80))) := by
    rw [strFind,
      drop_app segA0 _ _ (tok.accessToken.length + (tok.refreshToken.length +
        ((renderInt tok.expiresIn).length + 46))) (by rw [hlen0]; omega),
      drop_app tok.accessToken _ _ (tok.refreshToken.length +
        ((renderInt tok.expiresIn).length + 46)) (by omega),
      drop_app segA1 _ _ (tok.refreshToken.length +
        ((renderInt tok.expiresIn).length + 23)) (by rw [hlen1]; omega),
      drop_app tok.refreshToken _ _ ((renderInt tok.expiresIn).length + 23) (by omega),
      drop_app segA2 _ _ ((renderInt tok.expiresIn).length + 4) (by rw [hlen2]; omega),
      drop_app (renderInt tok.expiresIn) _ _ 4 (by omega),
      List.drop_append_of_le_length (by decide : 4 ≤ segA3.length),
      findSub_append_of_lt _ _ _ 13 (by decide) (by decide)]
    simp only [Option.map_some']
    exact congrArg some (by omega)
  have hnum : findFirstOf (segA0 ++ (tok.accessToken ++ (segA1 ++ (tok.refreshToken ++
      (segA2 ++ (renderInt tok.expiresIn ++ (segA3 ++ (renderInt t ++ segA4))))))))
      (str "-0123456789")
      (tok.accessToken.length + (tok.refreshToken.length +
        ((renderInt tok.expiresIn).length + 80)) + 1)
      = some (tok.accessToken.length + (tok.refreshToken.length +
          ((renderInt tok.expiresIn).length + 82))) := by
    obtain ⟨d, ds, hD2⟩ : ∃ d ds, renderInt t = d :: ds := by
      rw [renderInt_nonneg _ ht0]
      cases hD : renderNat t.toNat with
      | nil => exact absurd hD (renderNat_ne_nil _)
      | cons d ds => exact ⟨d, ds, rfl⟩
    have hdset : (str "-0123456789").contains d = true := by
      have hg : ∀ c ∈ str "0123456789", (str "-0123456789").contains c = true := by decide
      exact hg d (hD2digits d (by rw [hD2]; exact List.mem_cons_self d ds))
    rw [findFirstOf,
      drop_app segA0 _ _ (tok.accessToken.length + (tok.refreshToken.length +
        ((renderInt tok.expiresIn).length + 60))) (by rw [hlen0]; omega),
      drop_app tok.accessToken _ _ (tok.refreshToken.length +
        ((renderInt tok.expiresIn).length + 60)) (by omega),
      drop_app segA1 _ _ (tok.refreshToken.length +
        ((renderInt tok.expiresIn).length + 37)) (by rw [hlen1]; omega),
      drop_app tok.refreshToken _ _ ((renderInt tok.expiresIn).length + 37) (by omega),
      drop_app segA2 _ _ ((renderInt tok.expiresIn).length + 18) (by rw [hlen2]; omega),
      drop_app (renderInt tok.expiresIn) _ _ 18 (by omega),
      List.drop_append_of_le_length (by decide : 18 ≤ segA3.length),
      findP_append_shift _ _ _ (by decide), hD2, List.cons_append,
      findP_cons_true _ _ _ hdset]
    simp only [Option.map_some']
    exact congrArg some (by rw [show ((segA3.drop 18).length) = 1 by decide]; omega)
  have hdropD2 : (segA0 ++ (tok.accessToken ++ (segA1 ++ (tok.refreshToken ++
      (segA2 ++ (renderInt tok.expiresIn ++ (segA3 ++ (renderInt t ++ segA4)))))))).drop
      (tok.accessToken.length + (tok.refreshToken.length +
        ((renderInt tok.expiresIn).length + 82)))
      = renderInt t ++ segA4 := by
    rw [drop_app segA0 _ _ (tok.accessToken.length + (tok.refreshToken.length +
        ((renderInt tok.expiresIn).length + 61))) (by rw [hlen0]; omega),
      drop_app tok.accessToken _ _ (tok.refreshToken.length +
        ((renderInt tok.expiresIn).length + 61)) (by omega),
      drop_app segA1 _ _ (tok.refreshToken.length +
        ((renderInt tok.expiresIn).length + 38)) (by rw [hlen1]; omega),
      drop_app tok.refreshToken _ _ ((renderInt tok.expiresIn).length + 38) (by omega),
      drop_app segA2 _ _ ((renderInt tok.expiresIn).length + 19) (by rw [hlen2]; omega),
      drop_app (renderInt tok.expiresIn) _ _ 19 (by omega),
      drop_app segA3 _ _ 0 (by rw [hlen3]),
      List.drop_zero]
  have hD2false : ∀ c ∈ renderInt t,
      (fun c => !(str "0123456789").contains c) c = false := by
    have hg : ∀ c ∈ str "0123456789", (!(str "0123456789").contains c) = false := by decide
    intro c hc
    exact hg c (hD2digits c hc)
  have hsegA4cons : segA4 = '\n' :: str "\x7d\n" := by decide
  have hend : findFirstNotOf (segA0 ++ (tok.accessToken ++ (segA1 ++ (tok.refreshToken ++
      (segA2 ++ (renderInt tok.expiresIn ++ (segA3 ++ (renderInt t ++ segA4))))))))
      (str "0123456789")
      (tok.accessToken.length + (tok.refreshToken.length +
        ((renderInt tok.expiresIn).length + 82)))
      = some ((renderInt t).length + (tok.accessToken.length + (tok.refreshToken.length +
          ((renderInt tok.expiresIn).length + 82)))) := by
    rw [findFirstNotOf, hdropD2, findP_append_shift _ _ _ hD2false, hsegA4cons,
      findP_cons_true _ _ _ (by decide)]
    simp only [Option.map_some']
    exact congrArg some (by omega)
  simp only [parseJsonInt, hfind, hcolon, hnum, hend, Option.getD_some]
  rw [substr, hdropD2,
    show (renderInt t).length + (tok.accessToken.length + (tok.refreshToken.length +
        ((renderInt tok.expiresIn).length + 82)))
      - (tok.accessToken.length + (tok.refreshToken.length +
        ((renderInt tok.expiresIn).length + 82)))
      = (renderInt t).length by omega,
    List.take_left, renderInt_nonneg _ ht0,
    stol_renderNat _ (by rw [Int.toNat_of_nonneg ht0]; exact htmax),
    Int.toNat_of_nonneg ht0]

/-- **C5**, counterexample to the claim as stated: `tokCollide` is a valid
record (its `expiresAt` is consistent with saving at time 1700000000), but
because its access token is the literal string `acquired_at` the substring
parser mis-locates the `acquired_at` key on reload: the tokens round-trip,
yet the reloaded `expiresAt` is 7200, nowhere near 1700003600. -/
theorem c5_roundtrip_counterexample :
    loadTokenFromFile {} (savedJson tokCollide 1700000000)
      = some { accessToken := str "acquired_at", refreshToken := str "rt",
               expiresIn := 3600, expiresAt := 7200 } ∧
    tokCollide.expiresAt - (1700000000 + tokCollide.expiresIn) ≤ 1 ∧
    (1700000000 : Int) + tokCollide.expiresIn - tokCollide.expiresAt ≤ 1 ∧
    ¬ ((7200 : Int) - tokCollide.expiresAt ≤ 1 ∧ tokCollide.expiresAt - 7200 ≤ 1) := by
  decide

/-- **C5** (amended): for every valid `TokenRecord` whose tokens contain no
double-quote character and are not themselves one of the other literal
field names (`refresh_token`, `expires_in`, `acquired_at`), loading
immediately after saving reproduces `accessToken` and `refreshToken`
exactly and yields an `expiresAt` within 1 second of the record's
`expiresAt`. -/
theorem c5_roundtrip (tok0 tok : OAuthTokenData) (tSave : Int)
    (hq1 : '"' ∉ tok.accessToken) (hq2 : '"' ∉ tok.refreshToken)
    (h3 : tok.accessToken ≠ str "refresh_token")
    (h4 : tok.accessToken ≠ str "expires_in")
    (h5 : tok.accessToken ≠ str "acquired_at")
    (h6 : tok.refreshToken ≠ str "expires_in")
    (h7 : tok.refreshToken ≠ str "acquired_at")
    (h8 : 0 < tok.expiresIn) (h9 : tok.expiresIn < 2 ^ 31)
    (h10 : 0 ≤ tSave) (h11 : tSave ≤ 1000000000000)
    (h12 : tok.expiresAt - (tSave + tok.expiresIn) ≤ 1)
    (h13 : tSave + tok.expiresIn - tok.expiresAt ≤ 1) :
    ∃ r, loadTokenFromFile tok0 (savedJson tok tSave) = some r ∧
      r.accessToken = tok.accessToken ∧
      r.refreshToken = tok.refreshToken ∧
      r.expiresAt - tok.expiresAt ≤ 1 ∧ tok.expiresAt - r.expiresAt ≤ 1 := by
  have hA := parse_access_on_saved tok tSave hq1
  have hR := parse_refresh_on_saved tok tSave hq1 hq2 h3
  have hEI := parse_expiresin_on_saved tok tSave hq1 hq2 h4 h6 h8 (by omega)
  have hAQ := parse_acquiredat_on_saved tok tSave hq1 hq2 h5 h7 h8 h10 (by omega)
  have hcast : castToInt32 tok.expiresIn = tok.expiresIn := by
    rw [castToInt32, Int.emod_eq_of_lt (by omega) (by omega)]
    omega
  have hif : (if tSave > 1000000000000 then tSave / 1000 else tSave) = tSave :=
    if_neg (by omega)
  simp only [loadTokenFromFile, hA, hR, hEI, hAQ, hcast, hif]
  exact ⟨_, rfl, rfl, rfl,
    show tSave + tok.expiresIn - tok.expiresAt ≤ 1 by omega,
    show tok.expiresAt - (tSave + tok.expiresIn) ≤ 1 by omega⟩

/-- Witness for the C5 theorem at a concrete benign record. -/
theorem c5_roundtrip_witness :
    ('"' ∉ tokBenign.accessToken ∧ '"' ∉ tokBenign.refreshToken ∧
     tokBenign.accessToken ≠ str "refresh_token" ∧
     tokBenign.accessToken ≠ str "acquired_at" ∧
     (0 : Int) ≤ 1700000000 ∧
     tokBenign.expiresAt - (1700000000 + tokBenign.expiresIn) ≤ 1 ∧
     (1700000000 : Int) + tokBenign.expiresIn - tokBenign.expiresAt ≤ 1) ∧
    (∃ r, loadTokenFromFile {} (savedJson tokBenign 1700000000) = some r ∧
      r.accessToken = tokBenign.accessToken ∧
      r.refreshToken = tokBenign.refreshToken ∧
      r.expiresAt - tokBenign.expiresAt ≤ 1 ∧ tokBenign.expiresAt - r.expiresAt ≤ 1) :=
  ⟨⟨by decide, by decide, by decide, by decide, by decide, by decide, by decide⟩,
   c5_roundtrip {} tokBenign 1700000000 (by decide) (by decide) (by decide) (by decide)
     (by decide) (by decide) (by decide) (by decide) (by decide) (by decide) (by decide)
     (by decide) (by decide)⟩

end Pens
